import Mathlib

/-!
Verification of the `eufy-security-client` HTTP core (v0.9.2) against its
natural-language specification.

Shallow embedding of:
  * `src/http/parameter.ts` — `ParameterHelper.readValue` / `writeValue`
    together with the Node/JS library functions they call
    (`JSON.parse`, `JSON.stringify`, `Buffer.from(..).toString("ascii")`,
    `Buffer.from(..).toString("base64")`);
  * `src/http/utils.ts` — `isNotificationSwitchMode`, `switchNotificationMode`;
  * `src/http/api.ts` — the `HTTPApi` class: token lifecycle, the `request`
    dispatcher, `authenticate`, `sendVerifyCode`, `addTrustDevice`,
    `listTrustDevice`, `updateDeviceInfo`, plus the small setters.

JavaScript strings are modeled as Lean `String` (Unicode code points);
machine time (`new Date().getTime()`) is a parameter `now : Int` of every
stateful operation, fixed for the duration of one operation; the network is
an oracle `net : Nat → Response` consumed in call order.  `async`/`await`
sequencing is compiled to explicit state passing, and the mutual recursion
`request` ↔ `authenticate` is made total by a fuel argument (`none` = fuel
exhausted; every theorem below only talks about runs that return `some`).
-/

/-! ## JSON values

`JSON.parse` produces an arbitrary JavaScript value.  Numeric literals are
kept as their source lexeme (the claims under verification never inspect a
parsed number, so IEEE-754 semantics are not needed). -/

inductive Json where
  | null : Json
  | bool (b : Bool) : Json
  | num (lexeme : String) : Json
  | str (s : String) : Json
  | arr (elems : List Json) : Json
  | obj (fields : List (String × Json)) : Json
deriving Repr

/-! ### UTF-8 bytes of a string (model of Node `Buffer.from(string)`) -/

def utf8EncodeChar (c : Char) : List Nat :=
  let n := c.toNat
  if n < 128 then [n]
  else if n < 2048 then [192 + n / 64, 128 + n % 64]
  else if n < 65536 then [224 + n / 4096, 128 + n / 64 % 64, 128 + n % 64]
  else [240 + n / 262144, 128 + n / 4096 % 64, 128 + n / 64 % 64, 128 + n % 64]

def strBytes (s : String) : List Nat :=
  (s.data.map utf8EncodeChar).flatten

/-- Node `Buffer.from(value).toString("ascii")`: every byte has its high bit
stripped and becomes one character. -/
def asciiTranscode (s : String) : String :=
  String.mk ((strBytes s).map (fun b => Char.ofNat (b % 128)))

/-! ### Base64 (model of Node `Buffer.from(string).toString("base64")`) -/

def b64char (n : Nat) : Char :=
  if n < 26 then Char.ofNat (65 + n)
  else if n < 52 then Char.ofNat (97 + (n - 26))
  else if n < 62 then Char.ofNat (48 + (n - 52))
  else if n = 62 then Char.ofNat 43
  else Char.ofNat 47

def b64chunks : List Nat → List Char
  | [] => []
  | [a] => [b64char (a / 4), b64char (a % 4 * 16), Char.ofNat 61, Char.ofNat 61]
  | [a, b] => [b64char (a / 4), b64char (a % 4 * 16 + b / 16), b64char (b % 16 * 4), Char.ofNat 61]
  | a :: b :: c :: rest =>
    b64char (a / 4) :: b64char (a % 4 * 16 + b / 16) :: b64char (b % 16 * 4 + c / 64)
      :: b64char (c % 64) :: b64chunks rest

def base64Encode (s : String) : String :=
  String.mk (b64chunks (strBytes s))

/-! ### `JSON.stringify` of a string value -/

def hexDigit (n : Nat) : Char :=
  if n < 10 then Char.ofNat (48 + n) else Char.ofNat (97 + (n - 10))

def jsonEscapeChar (c : Char) : String :=
  if c = Char.ofNat 34 then String.mk [Char.ofNat 92, Char.ofNat 34]
  else if c = Char.ofNat 92 then String.mk [Char.ofNat 92, Char.ofNat 92]
  else if c = Char.ofNat 8 then String.mk [Char.ofNat 92, Char.ofNat 98]
  else if c = Char.ofNat 9 then String.mk [Char.ofNat 92, Char.ofNat 116]
  else if c = Char.ofNat 10 then String.mk [Char.ofNat 92, Char.ofNat 110]
  else if c = Char.ofNat 12 then String.mk [Char.ofNat 92, Char.ofNat 102]
  else if c = Char.ofNat 13 then String.mk [Char.ofNat 92, Char.ofNat 114]
  else if c.toNat < 32 then
    String.mk [Char.ofNat 92, Char.ofNat 117, Char.ofNat 48, Char.ofNat 48,
      hexDigit (c.toNat / 16), hexDigit (c.toNat % 16)]
  else String.singleton c

/-- `JSON.stringify(value)` for a string `value`: the quoted, escaped literal. -/
def jsonStringify (s : String) : String :=
  String.singleton (Char.ofNat 34) ++ String.join (s.data.map jsonEscapeChar)
    ++ String.singleton (Char.ofNat 34)

/-! ### `JSON.parse`

A recursive-descent parser for RFC 8259 JSON, as implemented by JS
`JSON.parse` (leading/trailing whitespace allowed, full input must be
consumed, control characters are rejected inside strings, numeric literals
follow the JSON grammar).  Structured values recurse through a fuel
parameter; `jsonParse` supplies fuel that is ample for its input. -/

def jsonWs (c : Char) : Bool :=
  c = Char.ofNat 32 || c = Char.ofNat 9 || c = Char.ofNat 10 || c = Char.ofNat 13

def skipWs : List Char → List Char
  | [] => []
  | c :: rest => if jsonWs c then skipWs rest else c :: rest

def hexVal (c : Char) : Option Nat :=
  if 48 ≤ c.toNat ∧ c.toNat ≤ 57 then some (c.toNat - 48)
  else if 97 ≤ c.toNat ∧ c.toNat ≤ 102 then some (c.toNat - 87)
  else if 65 ≤ c.toNat ∧ c.toNat ≤ 70 then some (c.toNat - 55)
  else none

/-- Body of a JSON string literal after the opening quote: returns the decoded
characters and the input remaining after the closing quote. -/
def parseStringBody : List Char → Option (List Char × List Char)
  | [] => none
  | c :: rest =>
    if c = Char.ofNat 34 then some ([], rest)
    else if c = Char.ofNat 92 then
      match rest with
      | [] => none
      | e :: rest2 =>
        if e = Char.ofNat 34 ∨ e = Char.ofNat 92 ∨ e = Char.ofNat 47 then
          (parseStringBody rest2).map (fun r => (e :: r.1, r.2))
        else if e = Char.ofNat 98 then
          (parseStringBody rest2).map (fun r => (Char.ofNat 8 :: r.1, r.2))
        else if e = Char.ofNat 102 then
          (parseStringBody rest2).map (fun r => (Char.ofNat 12 :: r.1, r.2))
        else if e = Char.ofNat 110 then
          (parseStringBody rest2).map (fun r => (Char.ofNat 10 :: r.1, r.2))
        else if e = Char.ofNat 114 then
          (parseStringBody rest2).map (fun r => (Char.ofNat 13 :: r.1, r.2))
        else if e = Char.ofNat 116 then
          (parseStringBody rest2).map (fun r => (Char.ofNat 9 :: r.1, r.2))
        else if e = Char.ofNat 117 then
          match rest2 with
          | h1 :: h2 :: h3 :: h4 :: rest3 =>
            match hexVal h1, hexVal h2, hexVal h3, hexVal h4 with
            | some a, some b, some c2, some d =>
              (parseStringBody rest3).map
                (fun r => (Char.ofNat (a * 4096 + b * 256 + c2 * 16 + d) :: r.1, r.2))
            | _, _, _, _ => none
          | _ => none
        else none
    else if c.toNat < 32 then none
    else (parseStringBody rest).map (fun r => (c :: r.1, r.2))

def takeDigits : List Char → List Char × List Char
  | [] => ([], [])
  | c :: rest =>
    if c.isDigit then
      let r := takeDigits rest
      (c :: r.1, r.2)
    else ([], c :: rest)

/-- JSON number lexeme: `-? int frac? exp?`.  Returns the lexeme and the rest. -/
def parseNumberLexeme (cs : List Char) : Option (List Char × List Char) :=
  let signed : List Char × List Char :=
    match cs with
    | c :: rest => if c = Char.ofNat 45 then ([c], rest) else ([], cs)
    | [] => ([], [])
  match signed.2 with
  | [] => none
  | c :: rest =>
    if c = Char.ofNat 48 then
      -- leading zero: no further integer digits allowed
      (some (signed.1 ++ [c], rest) : Option (List Char × List Char)).bind fun st =>
        let afterFrac : Option (List Char × List Char) :=
          match st.2 with
          | f :: rest2 =>
            if f = Char.ofNat 46 then
              match takeDigits rest2 with
              | ([], _) => none
              | (ds, rest3) => some (st.1 ++ f :: ds, rest3)
            else some st
          | [] => some st
        afterFrac.bind fun st2 =>
          match st2.2 with
          | e :: rest2 =>
            if e = Char.ofNat 101 ∨ e = Char.ofNat 69 then
              let se : List Char × List Char :=
                match rest2 with
                | s2 :: rest3 =>
                  if s2 = Char.ofNat 43 ∨ s2 = Char.ofNat 45 then ([s2], rest3) else ([], rest2)
                | [] => ([], [])
              match takeDigits se.2 with
              | ([], _) => none
              | (ds, rest3) => some (st2.1 ++ e :: (se.1 ++ ds), rest3)
            else some st2
          | [] => some st2
    else if c.isDigit then
      match takeDigits (c :: rest) with
      | (ds, rest2) =>
        let st : List Char × List Char := (signed.1 ++ ds, rest2)
        let afterFrac : Option (List Char × List Char) :=
          match st.2 with
          | f :: rest3 =>
            if f = Char.ofNat 46 then
              match takeDigits rest3 with
              | ([], _) => none
              | (ds2, rest4) => some (st.1 ++ f :: ds2, rest4)
            else some st
          | [] => some st
        afterFrac.bind fun st2 =>
          match st2.2 with
          | e :: rest3 =>
            if e = Char.ofNat 101 ∨ e = Char.ofNat 69 then
              let se : List Char × List Char :=
                match rest3 with
                | s2 :: rest4 =>
                  if s2 = Char.ofNat 43 ∨ s2 = Char.ofNat 45 then ([s2], rest4) else ([], rest3)
                | [] => ([], [])
              match takeDigits se.2 with
              | ([], _) => none
              | (ds2, rest4) => some (st2.1 ++ e :: (se.1 ++ ds2), rest4)
            else some st2
          | [] => some st2
    else none

mutual

def parseVal : Nat → List Char → Option (Json × List Char)
  | 0, _ => none
  | _ + 1, [] => none
  | fuel + 1, c :: rest =>
    if c = Char.ofNat 34 then
      (parseStringBody rest).map (fun r => (Json.str (String.mk r.1), r.2))
    else if c = Char.ofNat 116 then
      match rest with
      | r :: u :: e :: rest2 =>
        if r = Char.ofNat 114 ∧ u = Char.ofNat 117 ∧ e = Char.ofNat 101 then
          some (Json.bool true, rest2)
        else none
      | _ => none
    else if c = Char.ofNat 102 then
      match rest with
      | a :: l :: s2 :: e :: rest2 =>
        if a = Char.ofNat 97 ∧ l = Char.ofNat 108 ∧ s2 = Char.ofNat 115 ∧ e = Char.ofNat 101 then
          some (Json.bool false, rest2)
        else none
      | _ => none
    else if c = Char.ofNat 110 then
      match rest with
      | u :: l1 :: l2 :: rest2 =>
        if u = Char.ofNat 117 ∧ l1 = Char.ofNat 108 ∧ l2 = Char.ofNat 108 then
          some (Json.null, rest2)
        else none
      | _ => none
    else if c = Char.ofNat 91 then
      match skipWs rest with
      | c2 :: rest2 =>
        if c2 = Char.ofNat 93 then some (Json.arr [], rest2)
        else parseElems fuel (c2 :: rest2) []
      | [] => none
    else if c = Char.ofNat 123 then
      match skipWs rest with
      | c2 :: rest2 =>
        if c2 = Char.ofNat 125 then some (Json.obj [], rest2)
        else parseMembers fuel (c2 :: rest2) []
      | [] => none
    else if c = Char.ofNat 45 ∨ c.isDigit then
      (parseNumberLexeme (c :: rest)).map (fun r => (Json.num (String.mk r.1), r.2))
    else none

def parseElems : Nat → List Char → List Json → Option (Json × List Char)
  | 0, _, _ => none
  | fuel + 1, cs, acc =>
    match parseVal fuel cs with
    | none => none
    | some (v, rest) =>
      match skipWs rest with
      | c :: rest2 =>
        if c = Char.ofNat 44 then parseElems fuel (skipWs rest2) (acc ++ [v])
        else if c = Char.ofNat 93 then some (Json.arr (acc ++ [v]), rest2)
        else none
      | [] => none

def parseMembers : Nat → List Char → List (String × Json) → Option (Json × List Char)
  | 0, _, _ => none
  | fuel + 1, cs, acc =>
    match cs with
    | c :: rest =>
      if c = Char.ofNat 34 then
        match parseStringBody rest with
        | none => none
        | some (key, rest2) =>
          match skipWs rest2 with
          | c2 :: rest3 =>
            if c2 = Char.ofNat 58 then
              match parseVal fuel (skipWs rest3) with
              | none => none
              | some (v, rest4) =>
                match skipWs rest4 with
                | c3 :: rest5 =>
                  if c3 = Char.ofNat 44 then
                    parseMembers fuel (skipWs rest5) (acc ++ [(String.mk key, v)])
                  else if c3 = Char.ofNat 125 then
                    some (Json.obj (acc ++ [(String.mk key, v)]), rest5)
                  else none
                | [] => none
            else none
          | [] => none
      else none
    | [] => none

end

/-- Model of JS `JSON.parse`: `none` exactly when `JSON.parse` would throw a
`SyntaxError`. -/
def jsonParse (s : String) : Option Json :=
  match parseVal (2 * s.length + 2) (skipWs s.data) with
  | none => none
  | some (v, rest) => if skipWs rest = [] then some v else none

/-! ## Parameter type codes

`src/http/types.ts` and the p2p `CommandType` enum are not part of the
supplied sources; only `parameter.ts` (which compares the codes for equality)
is.  Modelled from the spec: the three special parameter classes
{snooze-mode, camera-motion-zones, doorbell-notification-mode} are three
distinct numeric codes; the concrete values below are only required to be
pairwise distinct. -/

namespace ParamType

/-- Modelled from the spec: numeric code of the snooze-mode parameter class
(`ParamType.SNOOZE_MODE` in the missing `types.ts`). -/
def SNOOZE_MODE : Nat := 1271

/-- Modelled from the spec: numeric code of the motion-zone-list parameter
class (`ParamType.CAMERA_MOTION_ZONES` in the missing `types.ts`). -/
def CAMERA_MOTION_ZONES : Nat := 1204

end ParamType

namespace CommandType

/-- Modelled from the spec: numeric code of the doorbell notification-mode
parameter class (`CommandType.CMD_BAT_DOORBELL_SET_NOTIFICATION_MODE` in the
missing p2p types file). -/
def CMD_BAT_DOORBELL_SET_NOTIFICATION_MODE : Nat := 1710

end CommandType

/-! ## `ParameterHelper` (src/http/parameter.ts)

`readValue` returns whatever `JSON.parse` produced on the decode branches
(an arbitrary JS value despite the declared `string` return type), so its
model returns `Json`; a pass-through string `v` is `Json.str v`. -/

namespace ParameterHelper

def readValue (type : Nat) (value : String) : Json :=
  if value ≠ "" then
    if type = ParamType.SNOOZE_MODE ∨ type = ParamType.CAMERA_MOTION_ZONES then
      match jsonParse (asciiTranscode value) with
      | some j => j
      | none => Json.str ""
    else if type = CommandType.CMD_BAT_DOORBELL_SET_NOTIFICATION_MODE then
      match jsonParse value with
      | some j => j
      | none => Json.str ""
    else Json.str value
  else Json.str value

def writeValue (type : Nat) (value : String) : String :=
  if value ≠ "" then
    let result := jsonStringify value
    if type = ParamType.SNOOZE_MODE then base64Encode result
    else result
  else ""

end ParameterHelper

/-! ## Notification switch modes (src/http/utils.ts)

`NotificationSwitchMode` lives in the missing `types.ts`.  Modelled from the
spec/claim: the four single modes are the four bits of the mask 240 that
`utils.ts` itself hard-codes (`value = 240` for the ALL sentinel 1). -/

namespace NotificationSwitchMode

/-- Modelled from the spec: `NotificationSwitchMode.APP` bit. -/
def APP : Nat := 16

/-- Modelled from the spec: `NotificationSwitchMode.GEOFENCE` bit. -/
def GEOFENCE : Nat := 32

/-- Modelled from the spec: `NotificationSwitchMode.SCHEDULE` bit. -/
def SCHEDULE : Nat := 64

/-- Modelled from the spec: `NotificationSwitchMode.KEYPAD` bit. -/
def KEYPAD : Nat := 128

end NotificationSwitchMode

def isNotificationSwitchMode (value : Nat) (mode : Nat) : Bool :=
  let value := if value = 1 then 240 else value
  decide (value &&& mode ≠ 0)

/-- JS `~m` on a 32-bit integer bit pattern: complement within 32 bits. -/
def js32Not (m : Nat) : Nat := 4294967295 ^^^ m

/-- The value computed by `switchNotificationMode` before the collapse-to-ALL
check (the body of the source function up to the final `if`).  JS numbers are
coerced to 32-bit integers by the bitwise operators, so `~mode & currentValue`
is `js32Not mode &&& currentValue` on the 32-bit bit patterns. -/
def switchNotificationModeRaw (currentValue : Nat) (mode : Nat) (enable : Bool) : Nat :=
  let currentValue := if ¬ enable ∧ currentValue = 1 then 240 else currentValue
  if enable then mode ||| currentValue
  else js32Not mode &&& currentValue

def switchNotificationMode (currentValue : Nat) (mode : Nat) (enable : Bool) : Nat :=
  let result := switchNotificationModeRaw currentValue mode enable
  if isNotificationSwitchMode result NotificationSwitchMode.SCHEDULE
      && isNotificationSwitchMode result NotificationSwitchMode.APP
      && isNotificationSwitchMode result NotificationSwitchMode.GEOFENCE
      && isNotificationSwitchMode result NotificationSwitchMode.KEYPAD then
    1
  else result

inductive AuthResult where
  | OK
  | RENEW
  | SEND_VERIFY_CODE
  | ERROR
deriving Repr, DecidableEq

namespace ResponseErrorCode

/-- Modelled from the spec: the well-known success sentinel of the response
envelope (`code == 0`); `types.ts`, which declares the enum, is not in the
supplied sources. -/
def CODE_WHATEVER_ERROR : Int := 0

/-- Modelled from the spec: the business code signalling that two-factor
verification is required (any fixed nonzero value; `types.ts` is missing). -/
def CODE_NEED_VERIFY_CODE : Int := 26052

end ResponseErrorCode

/-- Login payload (`LoginResultResponse` in the missing `models.ts`), reduced
to the fields the visible code reads. -/
structure LoginResultResponse where
  auth_token : String
  token_expires_at : Int
  domain : Option String
deriving Repr, DecidableEq

/-- Trusted-device entry (`TrustDevice` in the missing `models.ts`), reduced
to the one field the visible code reads. -/
structure TrustDevice where
  is_current_device : Int
deriving Repr, DecidableEq

/-- Station descriptor; all fields other than the key `station_sn` are
abstracted into an opaque payload. -/
structure HubResponse where
  station_sn : String
  payload : Nat
deriving Repr, DecidableEq

/-- Device descriptor; all fields other than the key `device_sn` are
abstracted into an opaque payload. -/
structure FullDeviceResponse where
  device_sn : String
  payload : Nat
deriving Repr, DecidableEq

/-- Shape of `result.data` for the endpoints the model exercises.  A JS value
of the wrong shape for the reading code makes the reader throw on property
access (caught by the surrounding try/catch) or skip its `if (dataresult)`
guard; mismatching constructors below land in the same catch branches. -/
inductive RespData where
  | empty
  | login (d : LoginResultResponse)
  | hubList (l : Option (List HubResponse))
  | devList (l : Option (List FullDeviceResponse))
  | trustList (l : Option (List TrustDevice))
deriving Repr, DecidableEq

/-- Resolved HTTP response (`validateStatus` resolves every status `< 500`;
a ≥ 500 transport rejection is outside the modeled oracle). -/
structure Response where
  status : Nat
  code : Int
  msg : String
  data : RespData
deriving Repr, DecidableEq

/-- The network oracle: the response delivered to the i-th HTTP call. -/
abbrev Net := Nat → Response

/-- Observable trace events: each issued HTTP call (recording the `baseURL`
and the token expiry held at the moment of issue), each `invalidateToken`
call, and each `connect`/`close`/`hubs`/`devices` emission. -/
inductive Ev where
  | http (base : String) (method : String) (endpoint : String) (status : Nat)
      (tokenExpiration : Option Int)
  | invalidate
  | connect
  | close
  | hubsEv
  | devicesEv
deriving Repr, DecidableEq

structure ApiState where
  apiBase : String
  username : String
  password : String
  token : Option String
  tokenExpiration : Option Int
  trustedTokenExpiration : Int
  connected : Bool
  hubs : List (String × HubResponse)
  devices : List (String × FullDeviceResponse)
  netIdx : Nat
deriving Repr, DecidableEq

/-- `new Date(2100, 12, 31, 23, 59, 59, 0)` (month 12 = January 2101, local
time) as a fixed epoch-milliseconds constant; no claim inspects its value,
only its identity. -/
def trustedTokenExpirationMs : Int := 4136223599000

/-- The `HTTPApi` constructor. -/
def mkHTTPApi (username password : String) : ApiState :=
  { apiBase := "https://mysecurity.eufylife.com/api/v1"
    username := username
    password := password
    token := none
    tokenExpiration := none
    trustedTokenExpiration := trustedTokenExpirationMs
    connected := false
    hubs := []
    devices := []
    netIdx := 0 }

def invalidateToken (s : ApiState) : ApiState :=
  { s with token := none, tokenExpiration := none }

def setToken (s : ApiState) (token : String) : ApiState :=
  { s with token := some token }

def setTokenExpiration (s : ApiState) (tokenExpiration : Int) : ApiState :=
  { s with tokenExpiration := some tokenExpiration }

/-- One axios call: consumes the next oracle response and records the issue. -/
def httpCall (net : Net) (s : ApiState) (method endpoint : String) :
    Response × ApiState × Ev :=
  let resp := net s.netIdx
  (resp, { s with netIdx := s.netIdx + 1 },
    Ev.http s.apiBase method endpoint resp.status s.tokenExpiration)

/-- The guard of `authenticate`:
`!this.token || this.tokenExpiration && now >= this.tokenExpiration`. -/
def tokenStale (now : Int) (s : ApiState) : Bool :=
  s.token.isNone ||
    (match s.tokenExpiration with
      | some e => decide (e ≤ now)
      | none => false)

mutual

/-- `HTTPApi.request` (api.ts lines 444-487).  Fuel bounds the
`request`/`authenticate` recursion; `none` means fuel ran out. -/
def request : Nat → Net → Int → ApiState → String → String →
    Option (Response × ApiState × List Ev)
  | 0, _, _, _, _, _ => none
  | fuel + 1, net, now, s, method, endpoint =>
    let step1 : Option (ApiState × List Ev) :=
      if s.token = none ∧ endpoint ≠ "passport/login" then
        match authenticate fuel net now s with
        | none => none
        | some (AuthResult.RENEW, s1, t1) =>
          match authenticate fuel net now s1 with
          | none => none
          | some (_, s2, t2) => some (s2, t1 ++ t2)
        | some (_, s1, t1) => some (s1, t1)
      else some (s, ([] : List Ev))
    match step1 with
    | none => none
    | some (s1, t1) =>
      let step2 : Option (ApiState × List Ev) :=
        match s1.tokenExpiration with
        | some e =>
          if e ≤ now then
            if endpoint ≠ "passport/login" then
              match authenticate fuel net now (invalidateToken s1) with
              | none => none
              | some (_, s3, t3) => some (s3, Ev.invalidate :: t3)
            else some (invalidateToken s1, [Ev.invalidate])
          else some (s1, ([] : List Ev))
        | none => some (s1, ([] : List Ev))
      match step2 with
      | none => none
      | some (s2, t2) =>
        let r := httpCall net s2 method endpoint
        if r.1.status = 401 then
          some (r.1, { invalidateToken r.2.1 with connected := false },
            t1 ++ t2 ++ [r.2.2, Ev.invalidate, Ev.close])
        else
          some (r.1, r.2.1, t1 ++ t2 ++ [r.2.2])

/-- `HTTPApi.authenticate` (api.ts lines 194-258). -/
def authenticate : Nat → Net → Int → ApiState → Option (AuthResult × ApiState × List Ev)
  | 0, _, _, _ => none
  | fuel + 1, net, now, s =>
    if tokenStale now s then
      match request fuel net now s "post" "passport/login" with
      | none => none
      | some (resp, s1, t1) =>
        if resp.status = 200 then
          if resp.code = ResponseErrorCode.CODE_WHATEVER_ERROR then
            match resp.data with
            | RespData.login d =>
              let s2 := { s1 with
                            token := some d.auth_token,
                            tokenExpiration := some (d.token_expires_at * 1000) }
              match d.domain with
              | some dom =>
                if "https://" ++ dom ++ "/v1" ≠ s2.apiBase then
                  some (AuthResult.RENEW,
                    { s2 with
                        apiBase := "https://" ++ dom ++ "/v1",
                        token := none, tokenExpiration := none }, t1)
                else some (AuthResult.OK, { s2 with connected := true }, t1 ++ [Ev.connect])
              | none => some (AuthResult.OK, { s2 with connected := true }, t1 ++ [Ev.connect])
            | _ => some (AuthResult.ERROR, s1, t1)
          else if resp.code = ResponseErrorCode.CODE_NEED_VERIFY_CODE then
            match resp.data with
            | RespData.login d =>
              let s2 := { s1 with
                            token := some d.auth_token,
                            tokenExpiration := some (d.token_expires_at * 1000) }
              match sendVerifyCode fuel net now s2 with
              | none => none
              | some (_, s3, t3) => some (AuthResult.SEND_VERIFY_CODE, s3, t1 ++ t3)
            | _ => some (AuthResult.ERROR, s1, t1)
          else some (AuthResult.ERROR, s1, t1)
        else some (AuthResult.ERROR, s1, t1)
    else
      some (AuthResult.OK, { s with connected := true }, [Ev.connect])

/-- `HTTPApi.sendVerifyCode` (api.ts lines 260-287); the `type` argument only
affects the request body, which the model elides. -/
def sendVerifyCode : Nat → Net → Int → ApiState → Option (Bool × ApiState × List Ev)
  | 0, _, _, _ => none
  | fuel + 1, net, now, s =>
    match request fuel net now s "post" "sms/send/verify_code" with
    | none => none
    | some (resp, s1, t1) =>
      if resp.status = 200 then
        if resp.code = ResponseErrorCode.CODE_WHATEVER_ERROR then some (true, s1, t1)
        else some (false, s1, t1)
      else some (false, s1, t1)

end

/-- `HTTPApi.listTrustDevice` (api.ts lines 289-313). -/
def listTrustDevice : Nat → Net → Int → ApiState →
    Option (List TrustDevice × ApiState × List Ev)
  | 0, _, _, _ => none
  | fuel + 1, net, now, s =>
    match request fuel net now s "get" "app/trust_device/list" with
    | none => none
    | some (resp, s1, t1) =>
      if resp.status = 200 then
        if resp.code = ResponseErrorCode.CODE_WHATEVER_ERROR then
          match resp.data with
          | RespData.trustList (some l) => some (l, s1, t1)
          | _ => some ([], s1, t1)
        else some ([], s1, t1)
      else some ([], s1, t1)

/-- The `trusted_devices.forEach` loop of `addTrustDevice`. -/
def trustFold (l : List TrustDevice) (s : ApiState) : ApiState :=
  l.foldl
    (fun st td =>
      if td.is_current_device = 1 then
        { st with tokenExpiration := some st.trustedTokenExpiration }
      else st)
    s

/-- `HTTPApi.addTrustDevice` (api.ts lines 315-371); the verify-code argument
only affects request bodies, which the model elides. -/
def addTrustDevice : Nat → Net → Int → ApiState → Option (Bool × ApiState × List Ev)
  | 0, _, _, _ => none
  | fuel + 1, net, now, s =>
    match request fuel net now s "post" "passport/login" with
    | none => none
    | some (r1, s1, t1) =>
      if r1.status = 200 then
        if r1.code = ResponseErrorCode.CODE_WHATEVER_ERROR then
          match request fuel net now s1 "post" "app/trust_device/add" with
          | none => none
          | some (r2, s2, t2) =>
            if r2.status = 200 then
              if r2.code = ResponseErrorCode.CODE_WHATEVER_ERROR then
                match listTrustDevice fuel net now s2 with
                | none => none
                | some (l, s3, t3) =>
                  some (true, { trustFold l s3 with connected := true },
                    t1 ++ t2 ++ t3 ++ [Ev.connect])
              else some (false, s2, t1 ++ t2)
            else if r2.status = 401 then
              some (false, invalidateToken s2, t1 ++ t2 ++ [Ev.invalidate])
            else some (false, s2, t1 ++ t2)
        else some (false, s1, t1)
      else some (false, s1, t1)

/-- JS object property assignment `m[k] = v`: overwrite in place, else append. -/
def mapInsert {α : Type} (m : List (String × α)) (k : String) (v : α) :
    List (String × α) :=
  match m with
  | [] => [(k, v)]
  | (k2, v2) :: rest => if k2 = k then (k2, v) :: rest else (k2, v2) :: mapInsert rest k v

def mapLookup {α : Type} (m : List (String × α)) (k : String) : Option α :=
  match m with
  | [] => none
  | (k2, v) :: rest => if k2 = k then some v else mapLookup rest k

/-- The stations block of `updateDeviceInfo` applied to one response: writes
the received elements into the hub map keyed by `station_sn` and emits `hubs`
when the (possibly pre-existing) map is non-empty. -/
def applyHubList (r : Response) (s1 : ApiState) : ApiState × List Ev :=
  if r.status = 200 then
    if r.code = 0 then
      match r.data with
      | RespData.hubList ol =>
        let s2 :=
          match ol with
          | some l =>
            { s1 with hubs := l.foldl (fun m h => mapInsert m h.station_sn h) s1.hubs }
          | none => s1
        if s2.hubs.length > 0 then (s2, [Ev.hubsEv]) else (s2, [])
      | _ => (s1, [])
    else (s1, [])
  else (s1, [])

/-- The devices block of `updateDeviceInfo` applied to one response. -/
def applyDevList (r : Response) (s1 : ApiState) : ApiState × List Ev :=
  if r.status = 200 then
    if r.code = 0 then
      match r.data with
      | RespData.devList ol =>
        let s2 :=
          match ol with
          | some l =>
            { s1 with devices := l.foldl (fun m d => mapInsert m d.device_sn d) s1.devices }
          | none => s1
        if s2.devices.length > 0 then (s2, [Ev.devicesEv]) else (s2, [])
      | _ => (s1, [])
    else (s1, [])
  else (s1, [])

/-- `HTTPApi.updateDeviceInfo` (api.ts lines 373-441): the stations block then
the devices block. -/
def updateDeviceInfo : Nat → Net → Int → ApiState → Option (ApiState × List Ev)
  | 0, _, _, _ => none
  | fuel + 1, net, now, s =>
    match request fuel net now s "post" "app/get_hub_list" with
    | none => none
    | some (r1, s1, t1) =>
      let p1 := applyHubList r1 s1
      match request fuel net now p1.1 "post" "app/get_devs_list" with
      | none => none
      | some (r2, s3, t2) =>
        let p2 := applyDevList r2 s3
        some (p2.1, t1 ++ p1.2 ++ t2 ++ p2.2)

def TokenInv (s : ApiState) : Prop := s.token ≠ none → s.tokenExpiration ≠ none

/-- The oracle only hands out login payloads whose expiry is still in the
future at time `now` (a server that never issues already-expired tokens). -/
def freshLogins (net : Net) (now : Int) : Prop :=
  ∀ i d, (net i).data = RespData.login d → now < d.token_expires_at * 1000

def expOk (now : Int) (x : Option Int) : Prop :=
  x = none ∨ ∃ e, x = some e ∧ now < e

def is401 (ev : Ev) : Bool :=
  match ev with
  | Ev.http _ _ _ st _ => decide (st = 401)
  | _ => false

def isClose (ev : Ev) : Bool :=
  match ev with
  | Ev.close => true
  | _ => false

def c401 (t : List Ev) : Nat := t.countP is401

def cClose (t : List Ev) : Nat := t.countP isClose

/-- State/trace facts preserved by every segment of a run: the token invariant
is preserved and `close` is emitted exactly once per 401-status response. -/
def SegOk (s s2 : ApiState) (t : List Ev) : Prop :=
  (TokenInv s → TokenInv s2) ∧ cClose t = c401 t

inductive Reachable : Bool → ApiState → Prop where
  | construct (allowSetToken : Bool) (username password : String) :
      Reachable allowSetToken (mkHTTPApi username password)
  | auth (allowSetToken : Bool) (fuel : Nat) (net : Net) (now : Int) (s : ApiState)
      (a : AuthResult) (s2 : ApiState) (t : List Ev) :
      Reachable allowSetToken s → authenticate fuel net now s = some (a, s2, t) →
      Reachable allowSetToken s2
  | send (allowSetToken : Bool) (fuel : Nat) (net : Net) (now : Int) (s : ApiState)
      (b : Bool) (s2 : ApiState) (t : List Ev) :
      Reachable allowSetToken s → sendVerifyCode fuel net now s = some (b, s2, t) →
      Reachable allowSetToken s2
  | req (allowSetToken : Bool) (fuel : Nat) (net : Net) (now : Int) (s : ApiState)
      (m ep : String) (r : Response) (s2 : ApiState) (t : List Ev) :
      Reachable allowSetToken s → request fuel net now s m ep = some (r, s2, t) →
      Reachable allowSetToken s2
  | addTrust (allowSetToken : Bool) (fuel : Nat) (net : Net) (now : Int) (s : ApiState)
      (b : Bool) (s2 : ApiState) (t : List Ev) :
      Reachable allowSetToken s → addTrustDevice fuel net now s = some (b, s2, t) →
      Reachable allowSetToken s2
  | invalidate (allowSetToken : Bool) (s : ApiState) :
      Reachable allowSetToken s → Reachable allowSetToken (invalidateToken s)
  | setTok (tk : String) (s : ApiState) :
      Reachable true s → Reachable true (setToken s tk)
  | setExp (allowSetToken : Bool) (d : Int) (s : ApiState) :
      Reachable allowSetToken s → Reachable allowSetToken (setTokenExpiration s d)

/-! ## Concrete scenarios used by the witness theorems -/

def hubA : HubResponse := ⟨"A", 0⟩

def hubB : HubResponse := ⟨"B", 1⟩

def sC5 : ApiState :=
  { mkHTTPApi "u" "p" with
      token := some "T"
      tokenExpiration := some 5
      hubs := [("A", hubA)] }

def netC5 : Net := fun i =>
  if i = 0 then ⟨200, 0, "", RespData.hubList (some [hubB])⟩
  else if i = 1 then ⟨200, 0, "", RespData.devList (some [])⟩
  else ⟨200, 0, "", RespData.empty⟩

def netC1 : Net := fun i =>
  if i = 0 then ⟨200, 0, "", RespData.login ⟨"T2", 10, none⟩⟩
  else ⟨200, 0, "", RespData.empty⟩

def sC1 : ApiState :=
  { mkHTTPApi "u" "p" with token := some "T", tokenExpiration := some 0 }

/-- A stale-login oracle: the server's login payload is itself already expired at
`now = 0` (`token_expires_at = -1`, stored as `-1000` ms). -/
def netC1s : Net := fun i =>
  if i = 0 then ⟨200, 0, "", RespData.login ⟨"T2", -1, none⟩⟩
  else ⟨200, 0, "", RespData.empty⟩

def netC2 : Net := fun _ => ⟨401, 0, "", RespData.empty⟩

def sC2 : ApiState :=
  { mkHTTPApi "u" "p" with token := some "T", tokenExpiration := some 99 }

def netC3 : Net := fun i =>
  if i = 0 then ⟨200, 0, "", RespData.login ⟨"A", 10, some "eu.anker.com"⟩⟩
  else if i = 1 then ⟨200, 0, "", RespData.login ⟨"B", 10, none⟩⟩
  else ⟨200, 0, "", RespData.empty⟩

def netC9 : Net := fun i =>
  if i = 2 then ⟨200, 0, "", RespData.trustList (some [⟨1⟩])⟩
  else ⟨200, 0, "", RespData.empty⟩

def sC9 : ApiState :=
  { mkHTTPApi "u" "p" with token := some "T", tokenExpiration := some 5 }

def netC4 : Net := fun i =>
  if i = 0 then ⟨200, 0, "", RespData.login ⟨"T2", 10, none⟩⟩
  else ⟨200, 0, "", RespData.empty⟩

def sC4w : ApiState :=
  { mkHTTPApi "u" "p" with
      token := some "T2"
      tokenExpiration := some 10000
      connected := true
      netIdx := 1 }

/-! ## Theorems -/

theorem land_lor_absorb (m v : Nat) : (m ||| v) &&& m = m := by
  apply Nat.eq_of_testBit_eq
  intro i
  rw [Nat.testBit_land, Nat.testBit_lor]
  cases m.testBit i <;> simp

theorem testBit_high_false {x i : Nat} (hx : x < 4294967296) (hi : 32 ≤ i) :
    x.testBit i = false := by
  apply Nat.testBit_lt_two_pow
  calc x < 4294967296 := hx
    _ = 2 ^ 32 := by norm_num
    _ ≤ 2 ^ i := Nat.pow_le_pow_right (by norm_num) hi

theorem js32Not_testBit (m i : Nat) :
    (js32Not m).testBit i = ((decide (i < 32)) ^^ m.testBit i) := by
  rw [js32Not, Nat.testBit_xor, show (4294967295 : Nat) = 2 ^ 32 - 1 by norm_num,
    Nat.testBit_two_pow_sub_one]

theorem js32Not_land_land_self (v m : Nat) (hm : m < 4294967296) :
    (js32Not m &&& v) &&& m = 0 := by
  apply Nat.eq_of_testBit_eq
  intro i
  rw [Nat.testBit_land, Nat.testBit_land, js32Not_testBit, Nat.zero_testBit]
  by_cases him : m.testBit i = true
  · have hi : i < 32 := by
      by_contra hcon
      push_neg at hcon
      rw [testBit_high_false hm hcon] at him
      exact Bool.false_ne_true him
    simp [him, hi]
  · simp [Bool.eq_false_iff.mpr him]

theorem land_lor_js32Not (v m : Nat) (hv : v < 4294967296) :
    (v &&& m) ||| (js32Not m &&& v) = v := by
  apply Nat.eq_of_testBit_eq
  intro i
  rw [Nat.testBit_lor, Nat.testBit_land, Nat.testBit_land, js32Not_testBit]
  by_cases hi : i < 32
  · simp only [hi, decide_True]
    cases m.testBit i <;> cases v.testBit i <;> simp
  · push_neg at hi
    rw [testBit_high_false hv hi]
    simp

theorem raw_eq_one_split (v m : Nat) (hv : v < 4294967296)
    (h : js32Not m &&& v = 1) : v = (v &&& m) ||| 1 := by
  conv_lhs => rw [← land_lor_js32Not v m hv, h]

theorem land_two_pow_cases (w k : Nat) : w &&& 2^k = 0 ∨ w &&& 2^k = 2^k := by
  rw [Nat.and_two_pow]
  cases w.testBit k <;> simp

theorem isNot_one (md : Nat) : isNotificationSwitchMode 1 md = decide (240 &&& md ≠ 0) := by
  simp [isNotificationSwitchMode]

theorem isNot_ne_one (v md : Nat) (h : v ≠ 1) :
    isNotificationSwitchMode v md = decide (v &&& md ≠ 0) := by
  simp [isNotificationSwitchMode, h]

theorem disable_retract_aux (v m k : Nat) (hv32 : v < 4294967296) (hmk : m = 2^k)
    (hguard : m = NotificationSwitchMode.SCHEDULE ∨ m = NotificationSwitchMode.APP ∨
      m = NotificationSwitchMode.GEOFENCE ∨ m = NotificationSwitchMode.KEYPAD)
    (hv : v ≠ m + 1) (h240 : js32Not m &&& 240 ≠ 1) (hone : m ||| 1 = m + 1) :
    isNotificationSwitchMode (switchNotificationMode v m false) m = false := by
  have hraw : switchNotificationModeRaw v m false = js32Not m &&& (if v = 1 then 240 else v) := by
    simp [switchNotificationModeRaw]
  have hr1 : js32Not m &&& (if v = 1 then 240 else v) ≠ 1 := by
    intro h1
    by_cases hv1 : v = 1
    · rw [if_pos hv1] at h1
      exact h240 h1
    · rw [if_neg hv1] at h1
      have hsplit := raw_eq_one_split v m hv32 h1
      have hcases : v &&& m = 0 ∨ v &&& m = m := by
        rw [hmk]; exact land_two_pow_cases v k
      rcases hcases with h0 | hm2
      · rw [h0] at hsplit
        simp at hsplit
        exact hv1 hsplit
      · rw [hm2, hone] at hsplit
        exact hv hsplit
  have hm32 : m < 4294967296 := by
    rcases hguard with h | h | h | h <;> rw [h] <;> decide
  have hrm : (js32Not m &&& (if v = 1 then 240 else v)) &&& m = 0 :=
    js32Not_land_land_self (if v = 1 then 240 else v) m hm32
  have hfalse : isNotificationSwitchMode (js32Not m &&& (if v = 1 then 240 else v)) m
      = false := by
    rw [isNot_ne_one _ _ hr1, hrm]
    decide
  rw [switchNotificationMode, hraw]
  have hg : (isNotificationSwitchMode (js32Not m &&& (if v = 1 then 240 else v))
        NotificationSwitchMode.SCHEDULE
      && isNotificationSwitchMode (js32Not m &&& (if v = 1 then 240 else v))
        NotificationSwitchMode.APP
      && isNotificationSwitchMode (js32Not m &&& (if v = 1 then 240 else v))
        NotificationSwitchMode.GEOFENCE
      && isNotificationSwitchMode (js32Not m &&& (if v = 1 then 240 else v))
        NotificationSwitchMode.KEYPAD) = false := by
    rcases hguard with h | h | h | h <;> rw [← h] <;> simp [hfalse]
  rw [if_neg (by simp [hg])]
  exact hfalse

theorem enable_retract_aux (v m : Nat)
    (hm : (240:Nat) &&& m ≠ 0) (hm0 : m ≠ 0) :
    isNotificationSwitchMode (switchNotificationMode v m true) m = true := by
  have hraw : switchNotificationModeRaw v m true = m ||| v := by
    simp [switchNotificationModeRaw]
  rw [switchNotificationMode, hraw]
  by_cases hg : (isNotificationSwitchMode (m ||| v) NotificationSwitchMode.SCHEDULE
      && isNotificationSwitchMode (m ||| v) NotificationSwitchMode.APP
      && isNotificationSwitchMode (m ||| v) NotificationSwitchMode.GEOFENCE
      && isNotificationSwitchMode (m ||| v) NotificationSwitchMode.KEYPAD) = true
  · rw [if_pos hg, isNot_one]
    simpa using hm
  · rw [if_neg hg]
    have hne : (m ||| v) ≠ 1 := by
      intro h1
      rw [h1] at hg
      revert hg
      decide
    rw [isNot_ne_one _ _ hne, land_lor_absorb]
    simpa using hm0

theorem sentinel_iff_aux (v m : Nat) (e : Bool) :
    switchNotificationMode v m e = 1 ↔
      (isNotificationSwitchMode (switchNotificationModeRaw v m e)
          NotificationSwitchMode.SCHEDULE = true ∧
        isNotificationSwitchMode (switchNotificationModeRaw v m e)
          NotificationSwitchMode.APP = true ∧
        isNotificationSwitchMode (switchNotificationModeRaw v m e)
          NotificationSwitchMode.GEOFENCE = true ∧
        isNotificationSwitchMode (switchNotificationModeRaw v m e)
          NotificationSwitchMode.KEYPAD = true) := by
  rw [switchNotificationMode]
  by_cases hg : (isNotificationSwitchMode (switchNotificationModeRaw v m e)
      NotificationSwitchMode.SCHEDULE
      && isNotificationSwitchMode (switchNotificationModeRaw v m e) NotificationSwitchMode.APP
      && isNotificationSwitchMode (switchNotificationModeRaw v m e) NotificationSwitchMode.GEOFENCE
      && isNotificationSwitchMode (switchNotificationModeRaw v m e)
        NotificationSwitchMode.KEYPAD) = true
  · rw [if_pos hg]
    simp only [Bool.and_eq_true] at hg
    exact ⟨fun _ => ⟨hg.1.1.1, hg.1.1.2, hg.1.2, hg.2⟩, fun _ => rfl⟩
  · rw [if_neg hg]
    constructor
    · intro h1
      rw [h1]
      exact ⟨by decide, by decide, by decide, by decide⟩
    · intro h4
      exact absurd (by simp [h4.1, h4.2.1, h4.2.2.1, h4.2.2.2]) hg

/-- C10 (amended): for every 32-bit current value `v` and single mode
`m ∈ {APP, GEOFENCE, SCHEDULE, KEYPAD}`, enabling `m` and testing it yields
`true`; disabling `m` and testing it yields `false` provided `v ≠ m + 1`
(disabling `m` on `m + 1` collapses to the ALL sentinel 1, which tests as
enabled — see `claim_C10_counterexample`); `switchNotificationMode` returns the
sentinel 1 exactly when all four modes test set on the pre-collapse value; and
`isNotificationSwitchMode` treats the input value 1 as if all four mode bits
(240) were set. -/
theorem claim_C10_notification_switch_amended (v m : Nat) (hv32 : v < 4294967296)
    (hm : m = NotificationSwitchMode.APP ∨ m = NotificationSwitchMode.GEOFENCE ∨
      m = NotificationSwitchMode.SCHEDULE ∨ m = NotificationSwitchMode.KEYPAD) :
    isNotificationSwitchMode (switchNotificationMode v m true) m = true ∧
    (v ≠ m + 1 → isNotificationSwitchMode (switchNotificationMode v m false) m = false) ∧
    (∀ e : Bool, switchNotificationMode v m e = 1 ↔
      (isNotificationSwitchMode (switchNotificationModeRaw v m e)
          NotificationSwitchMode.SCHEDULE = true ∧
        isNotificationSwitchMode (switchNotificationModeRaw v m e)
          NotificationSwitchMode.APP = true ∧
        isNotificationSwitchMode (switchNotificationModeRaw v m e)
          NotificationSwitchMode.GEOFENCE = true ∧
        isNotificationSwitchMode (switchNotificationModeRaw v m e)
          NotificationSwitchMode.KEYPAD = true)) ∧
    (∀ md : Nat, isNotificationSwitchMode 1 md = isNotificationSwitchMode 240 md) := by
  refine ⟨?_, ?_, fun e => sentinel_iff_aux v m e, ?_⟩
  · rcases hm with rfl | rfl | rfl | rfl <;>
      exact enable_retract_aux v _ (by decide) (by decide)
  · intro hv
    rcases hm with rfl | rfl | rfl | rfl
    · exact disable_retract_aux v _ 4 hv32 (by decide) (by decide) hv (by decide) (by decide)
    · exact disable_retract_aux v _ 5 hv32 (by decide) (by decide) hv (by decide) (by decide)
    · exact disable_retract_aux v _ 6 hv32 (by decide) (by decide) hv (by decide) (by decide)
    · exact disable_retract_aux v _ 7 hv32 (by decide) (by decide) hv (by decide) (by decide)
  · intro md
    rw [isNot_one, isNot_ne_one 240 md (by decide)]

/-- C10 counterexample: 17 is a genuine current value (enabling APP on the ALL
sentinel 1 produces it), yet disabling APP on 17 collapses to the sentinel 1,
which `isNotificationSwitchMode` reports as APP still enabled — refuting the
claimed disable/test retraction at a concrete input. -/
theorem claim_C10_counterexample :
    switchNotificationMode 1 NotificationSwitchMode.APP true = 17 ∧
    isNotificationSwitchMode (switchNotificationMode 17 NotificationSwitchMode.APP false)
      NotificationSwitchMode.APP = true := by
  decide

/-- C10 witness: the enable and disable conjuncts evaluated at value 0 and mode
APP. -/
theorem claim_C10_witness :
    isNotificationSwitchMode (switchNotificationMode 0 NotificationSwitchMode.APP true)
      NotificationSwitchMode.APP = true ∧
    isNotificationSwitchMode (switchNotificationMode 0 NotificationSwitchMode.APP false)
      NotificationSwitchMode.APP = false :=
  ⟨(claim_C10_notification_switch_amended 0 NotificationSwitchMode.APP (by decide)
      (Or.inl rfl)).1,
    (claim_C10_notification_switch_amended 0 NotificationSwitchMode.APP (by decide)
      (Or.inl rfl)).2.1 (by decide)⟩

/-- C6: the snooze-mode codec pipeline is asymmetric exactly as specified —
`writeValue` on a non-empty value returns the base64 of its JSON serialization,
`readValue` interprets the wire value as ASCII bytes and JSON-parses them with
no base64-decoding step, and consequently some non-empty value (here "5") does
not round-trip. -/
theorem claim_C6_snooze_codec_asymmetry :
    (∀ v : String, v ≠ "" →
      ParameterHelper.writeValue ParamType.SNOOZE_MODE v = base64Encode (jsonStringify v)) ∧
    (∀ w : String, w ≠ "" →
      ParameterHelper.readValue ParamType.SNOOZE_MODE w =
        (jsonParse (asciiTranscode w)).getD (Json.str "")) ∧
    (∃ v : String, v ≠ "" ∧
      ParameterHelper.readValue ParamType.SNOOZE_MODE
        (ParameterHelper.writeValue ParamType.SNOOZE_MODE v) ≠ Json.str v) := by
  refine ⟨?_, ?_, ?_⟩
  · intro v hv
    simp [ParameterHelper.writeValue, hv]
  · intro w hw
    simp only [ParameterHelper.readValue, hw, ne_eq, not_false_iff, if_true, true_or, if_pos]
    cases h : jsonParse (asciiTranscode w) <;> simp [h]
  · refine ⟨"5", by decide, ?_⟩
    have h1 : ParameterHelper.readValue ParamType.SNOOZE_MODE
        (ParameterHelper.writeValue ParamType.SNOOZE_MODE "5") = Json.str "" := by rfl
    rw [h1]
    simp

/-- C7: for every parameter type outside {snooze-mode, camera-motion-zones,
doorbell-notification-mode} and non-empty wire value, `readValue` passes the
value through unchanged; and for every non-empty value and type other than
snooze-mode, `writeValue` is the plain JSON serialization. -/
theorem claim_C7_passthrough :
    (∀ (t : Nat) (v : String),
      t ≠ ParamType.SNOOZE_MODE → t ≠ ParamType.CAMERA_MOTION_ZONES →
      t ≠ CommandType.CMD_BAT_DOORBELL_SET_NOTIFICATION_MODE → v ≠ "" →
      ParameterHelper.readValue t v = Json.str v) ∧
    (∀ (t : Nat) (v : String), t ≠ ParamType.SNOOZE_MODE → v ≠ "" →
      ParameterHelper.writeValue t v = jsonStringify v) := by
  constructor
  · intro t v h1 h2 h3 hv
    simp [ParameterHelper.readValue, hv, h1, h2, h3]
  · intro t v h1 hv
    simp [ParameterHelper.writeValue, hv, h1]

/-- C8: a wire value that fails JSON parsing on the snooze-mode /
camera-motion-zones decode path (ASCII transcode then parse) or on the
doorbell-notification-mode path (direct parse) makes `readValue` return the
empty string; `readValue` is total, so the error never escapes as an
exception. -/
theorem claim_C8_decode_error_recovered :
    (∀ (t : Nat) (w : String),
      (t = ParamType.SNOOZE_MODE ∨ t = ParamType.CAMERA_MOTION_ZONES) → w ≠ "" →
      jsonParse (asciiTranscode w) = none →
      ParameterHelper.readValue t w = Json.str "") ∧
    (∀ w : String, w ≠ "" → jsonParse w = none →
      ParameterHelper.readValue CommandType.CMD_BAT_DOORBELL_SET_NOTIFICATION_MODE w
        = Json.str "") := by
  constructor
  · intro t w ht hw hp
    rcases ht with rfl | rfl <;>
      simp [ParameterHelper.readValue, hw, hp]
  · intro w hw hp
    simp [ParameterHelper.readValue, ParamType.SNOOZE_MODE, ParamType.CAMERA_MOTION_ZONES,
      CommandType.CMD_BAT_DOORBELL_SET_NOTIFICATION_MODE, hw, hp]

/-- C6 witness: the two universally quantified conjuncts evaluated at "5" and
"IjUi". -/
theorem claim_C6_witness :
    ParameterHelper.writeValue ParamType.SNOOZE_MODE "5" = base64Encode (jsonStringify "5") ∧
    ParameterHelper.readValue ParamType.SNOOZE_MODE "IjUi" =
      (jsonParse (asciiTranscode "IjUi")).getD (Json.str "") :=
  ⟨claim_C6_snooze_codec_asymmetry.1 "5" (by decide),
    claim_C6_snooze_codec_asymmetry.2.1 "IjUi" (by decide)⟩

/-- C7 witness: both conjuncts evaluated at type 1000 and value "abc". -/
theorem claim_C7_witness :
    ParameterHelper.readValue 1000 "abc" = Json.str "abc" ∧
    ParameterHelper.writeValue 1000 "abc" = jsonStringify "abc" :=
  ⟨claim_C7_passthrough.1 1000 "abc" (by decide) (by decide) (by decide) (by decide),
    claim_C7_passthrough.2 1000 "abc" (by decide) (by decide)⟩

/-- C8 witness: both conjuncts evaluated at the unparsable wire value "x". -/
theorem claim_C8_witness :
    ParameterHelper.readValue ParamType.SNOOZE_MODE "x" = Json.str "" ∧
    ParameterHelper.readValue CommandType.CMD_BAT_DOORBELL_SET_NOTIFICATION_MODE "x"
      = Json.str "" :=
  ⟨claim_C8_decode_error_recovered.1 ParamType.SNOOZE_MODE "x" (Or.inl rfl) (by decide)
      (by rfl),
    claim_C8_decode_error_recovered.2 "x" (by decide) (by rfl)⟩

theorem mapLookup_insert {α : Type} (m : List (String × α)) (k k2 : String) (v : α) :
    mapLookup (mapInsert m k v) k2 = if k2 = k then some v else mapLookup m k2 := by
  induction m with
  | nil =>
    by_cases h : k2 = k
    · simp [mapInsert, mapLookup, h]
    · simp [mapInsert, mapLookup, h, Ne.symm h]
  | cons pr rest ih =>
    obtain ⟨k3, v3⟩ := pr
    by_cases h3 : k3 = k
    · subst h3
      by_cases h2 : k2 = k3
      · subst h2
        simp [mapInsert, mapLookup]
      · simp [mapInsert, mapLookup, h2, Ne.symm h2]
    · by_cases h2 : k2 = k3
      · subst h2
        simp [mapInsert, mapLookup, h3, Ne.symm h3]
      · simp [mapInsert, mapLookup, h3, h2, Ne.symm h2, ih]

theorem mapLookup_foldl_insert_not_mem {α : Type} (key : α → String)
    (l : List α) (m : List (String × α)) (k : String) (h : ∀ x ∈ l, key x ≠ k) :
    mapLookup (l.foldl (fun acc x => mapInsert acc (key x) x) m) k = mapLookup m k := by
  induction l generalizing m with
  | nil => simp
  | cons hd tl ih =>
    rw [List.foldl_cons, ih (mapInsert m (key hd) hd) (fun x hx => h x (List.mem_cons_of_mem hd hx)),
      mapLookup_insert]
    rw [if_neg (fun hk => h hd (List.mem_cons_self hd tl) (Eq.symm hk))]

theorem mapLookup_foldl_insert_mem {α : Type} (key : α → String)
    (l : List α) (m : List (String × α)) (k : String) (h : ∃ x ∈ l, key x = k) :
    ∃ x, x ∈ l ∧ key x = k ∧
      mapLookup (l.foldl (fun acc x => mapInsert acc (key x) x) m) k = some x := by
  induction l generalizing m with
  | nil => simp at h
  | cons hd tl ih =>
    by_cases htl : ∃ x ∈ tl, key x = k
    · obtain ⟨x, hx, hkx, heq⟩ := ih (mapInsert m (key hd) hd) htl
      exact ⟨x, List.mem_cons_of_mem hd hx, hkx, by rw [List.foldl_cons]; exact heq⟩
    · have hhd : key hd = k := by
        obtain ⟨x, hx, hkx⟩ := h
        rcases List.mem_cons.mp hx with rfl | hmem
        · exact hkx
        · exact absurd ⟨x, hmem, hkx⟩ htl
      refine ⟨hd, List.mem_cons_self hd tl, hhd, ?_⟩
      rw [List.foldl_cons,
        mapLookup_foldl_insert_not_mem key tl (mapInsert m (key hd) hd) k
          (fun x hx hk => htl ⟨x, hx, hk⟩),
        mapLookup_insert, if_pos (Eq.symm hhd)]

theorem request_valid_token (f : Nat) (net : Net) (now : Int) (s : ApiState)
    (m ep : String) (tk : String) (e : Int) (htk : s.token = some tk)
    (hexp : s.tokenExpiration = some e) (hfut : now < e)
    (hst : (net s.netIdx).status ≠ 401) :
    request (f + 1) net now s m ep =
      some (net s.netIdx, { s with netIdx := s.netIdx + 1 },
        [Ev.http s.apiBase m ep (net s.netIdx).status (some e)]) := by
  have hnle : ¬ e ≤ now := not_le.mpr hfut
  simp [request, httpCall, htk, hexp, hnle, hst]

/-- C5 (amended): after a successful directory refresh (status 200, business
code 0 on both calls), every serial of the latest response maps to its received
element, but entries from earlier refreshes whose serials are absent from the
latest response are left unchanged in the maps: `updateDeviceInfo` merges
per-serial and never clears, it does not replace wholesale.  The claim as
stated is false: see `claim_C5_counterexample`. -/
theorem claim_C5_directory_merge (f : Nat) (net : Net) (now : Int) (s : ApiState)
    (tk : String) (e : Int) (lh : List HubResponse) (ld : List FullDeviceResponse)
    (m1 m2 : String)
    (htk : s.token = some tk) (hexp : s.tokenExpiration = some e) (hfut : now < e)
    (h1 : net s.netIdx = ⟨200, 0, m1, RespData.hubList (some lh)⟩)
    (h2 : net (s.netIdx + 1) = ⟨200, 0, m2, RespData.devList (some ld)⟩) :
    ∃ s2 t, updateDeviceInfo (f + 2) net now s = some (s2, t) ∧
      s2.hubs = lh.foldl (fun m h => mapInsert m h.station_sn h) s.hubs ∧
      s2.devices = ld.foldl (fun m d => mapInsert m d.device_sn d) s.devices ∧
      (∀ k, (∀ h ∈ lh, h.station_sn ≠ k) → mapLookup s2.hubs k = mapLookup s.hubs k) ∧
      (∀ k, (∃ h ∈ lh, h.station_sn = k) →
        ∃ h, h ∈ lh ∧ h.station_sn = k ∧ mapLookup s2.hubs k = some h) ∧
      (∀ k, (∀ d ∈ ld, d.device_sn ≠ k) → mapLookup s2.devices k = mapLookup s.devices k) ∧
      (∀ k, (∃ d ∈ ld, d.device_sn = k) →
        ∃ d, d ∈ ld ∧ d.device_sn = k ∧ mapLookup s2.devices k = some d) := by
  have hr1 := request_valid_token f net now s "post" "app/get_hub_list" tk e htk hexp hfut
    (by rw [h1]; simp)
  have hr2 := request_valid_token f net now
    ({ s with
        netIdx := s.netIdx + 1
        hubs := lh.foldl (fun m h => mapInsert m h.station_sn h) s.hubs })
    "post" "app/get_devs_list" tk e (by exact htk) (by exact hexp) hfut
    (by show (net (s.netIdx + 1)).status ≠ 401; rw [h2]; simp)
  have hap1 : (applyHubList ⟨200, 0, m1, RespData.hubList (some lh)⟩
      { s with netIdx := s.netIdx + 1 }).1 =
      { s with
          netIdx := s.netIdx + 1
          hubs := lh.foldl (fun m h => mapInsert m h.station_sn h) s.hubs } := by
    simp only [applyHubList, if_true, eq_self_iff_true]
    norm_num
    split <;> rfl
  have hap2 : ∀ s3 : ApiState, (applyDevList ⟨200, 0, m2, RespData.devList (some ld)⟩ s3).1 =
      { s3 with devices := ld.foldl (fun m d => mapInsert m d.device_sn d) s3.devices } := by
    intro s3
    simp only [applyDevList, if_true, eq_self_iff_true]
    norm_num
    split <;> rfl
  rw [show f + 2 = (f + 1) + 1 from rfl]
  simp only [updateDeviceInfo, hr1, h1, hap1, hr2, h2, hap2]
  refine ⟨_, _, rfl, rfl, rfl, ?_, ?_, ?_, ?_⟩
  · intro k hk
    exact mapLookup_foldl_insert_not_mem _ lh s.hubs k hk
  · intro k hk
    exact mapLookup_foldl_insert_mem _ lh s.hubs k hk
  · intro k hk
    exact mapLookup_foldl_insert_not_mem _ ld s.devices k hk
  · intro k hk
    exact mapLookup_foldl_insert_mem _ ld s.devices k hk

/-- C5 counterexample: a successful refresh whose hub list is `[hubB]` leaves
the previously cached serial "A" in the hub map, although "A" is absent from
the latest response — refuting wholesale replacement at a concrete input. -/
theorem claim_C5_counterexample :
    netC5 0 = ⟨200, 0, "", RespData.hubList (some [hubB])⟩ ∧
    (∀ h ∈ [hubB], h.station_sn ≠ "A") ∧
    (updateDeviceInfo 2 netC5 0 sC5).map (fun p => mapLookup p.1.hubs "A")
      = some (some hubA) :=
  ⟨rfl, by decide, by rfl⟩

/-- C5 witness: the amended conclusion evaluated on a concrete refresh run. -/
theorem claim_C5_witness :
    ∃ s2 t, updateDeviceInfo 2 netC5 0 sC5 = some (s2, t) ∧
      s2.hubs = [hubB].foldl (fun m h => mapInsert m h.station_sn h) sC5.hubs ∧
      s2.devices =
        ([] : List FullDeviceResponse).foldl (fun m d => mapInsert m d.device_sn d)
          sC5.devices ∧
      (∀ k, (∀ h ∈ [hubB], h.station_sn ≠ k) → mapLookup s2.hubs k = mapLookup sC5.hubs k) ∧
      (∀ k, (∃ h ∈ [hubB], h.station_sn = k) →
        ∃ h, h ∈ [hubB] ∧ h.station_sn = k ∧ mapLookup s2.hubs k = some h) ∧
      (∀ k, (∀ d ∈ ([] : List FullDeviceResponse), d.device_sn ≠ k) →
        mapLookup s2.devices k = mapLookup sC5.devices k) ∧
      (∀ k, (∃ d ∈ ([] : List FullDeviceResponse), d.device_sn = k) →
        ∃ d, d ∈ ([] : List FullDeviceResponse) ∧ d.device_sn = k ∧
          mapLookup s2.devices k = some d) :=
  claim_C5_directory_merge 0 netC5 0 sC5 "T" 5 [hubB] [] "" "" rfl rfl (by decide) rfl rfl

theorem trustFold_trusted (l : List TrustDevice) (s : ApiState) :
    (trustFold l s).trustedTokenExpiration = s.trustedTokenExpiration := by
  induction l generalizing s with
  | nil => rfl
  | cons hd tl ih =>
    rw [trustFold, List.foldl_cons]
    by_cases h : hd.is_current_device = 1
    · rw [if_pos h]
      exact ih _
    · rw [if_neg h]
      exact ih _

theorem trustFold_exp (l : List TrustDevice) (s : ApiState) :
    (trustFold l s).tokenExpiration =
      if ∃ td ∈ l, td.is_current_device = 1 then some s.trustedTokenExpiration
      else s.tokenExpiration := by
  induction l generalizing s with
  | nil => simp [trustFold]
  | cons hd tl ih =>
    by_cases h : hd.is_current_device = 1
    · have h1 : trustFold (hd :: tl) s
          = trustFold tl { s with tokenExpiration := some s.trustedTokenExpiration } := by
        rw [trustFold, trustFold, List.foldl_cons, if_pos h]
      have hex : ∃ td ∈ hd :: tl, td.is_current_device = 1 :=
        ⟨hd, List.mem_cons_self hd tl, h⟩
      rw [h1, ih, if_pos hex]
      split <;> rfl
    · have h1 : trustFold (hd :: tl) s = trustFold tl s := by
        rw [trustFold, trustFold, List.foldl_cons, if_neg h]
      rw [h1, ih]
      by_cases hex : ∃ td ∈ tl, td.is_current_device = 1
      · have hex2 : ∃ td ∈ hd :: tl, td.is_current_device = 1 := by
          obtain ⟨td, htd, hc⟩ := hex
          exact ⟨td, List.mem_cons_of_mem hd htd, hc⟩
        rw [if_pos hex, if_pos hex2]
      · have hex2 : ¬ ∃ td ∈ hd :: tl, td.is_current_device = 1 := by
          intro hcon
          obtain ⟨td, htd, hc⟩ := hcon
          rcases List.mem_cons.mp htd with rfl | hmem
          · exact h hc
          · exact hex ⟨td, hmem, hc⟩
        rw [if_neg hex, if_neg hex2]

/-- C9: when `addTrustDevice` succeeds (both the verify-code login and the
trust-device-add call return 200 with the success business code) and the
fetched trusted-device list contains an entry with `is_current_device = 1`,
`tokenExpiration` becomes the far-future trusted sentinel and the call returns
`true`; when no listed entry is the current device, `tokenExpiration` is left
unchanged. -/
theorem claim_C9_trust_device_extends_expiry (f : Nat) (net : Net) (now : Int)
    (s : ApiState) (tk : String) (e : Int) (l : List TrustDevice) (m3 : String)
    (htk : s.token = some tk) (hexp : s.tokenExpiration = some e) (hfut : now < e)
    (h1s : (net s.netIdx).status = 200) (h1c : (net s.netIdx).code = 0)
    (h2s : (net (s.netIdx + 1)).status = 200) (h2c : (net (s.netIdx + 1)).code = 0)
    (h3 : net (s.netIdx + 2) = ⟨200, 0, m3, RespData.trustList (some l)⟩) :
    ∃ s3 t, addTrustDevice (f + 3) net now s = some (true, s3, t) ∧
      ((∃ td ∈ l, td.is_current_device = 1) →
        s3.tokenExpiration = some s.trustedTokenExpiration) ∧
      ((¬ ∃ td ∈ l, td.is_current_device = 1) → s3.tokenExpiration = some e) := by
  have hr1 := request_valid_token (f + 1) net now s "post" "passport/login" tk e htk hexp
    hfut (by simp [h1s])
  have hr2 := request_valid_token (f + 1) net now ({ s with netIdx := s.netIdx + 1 })
    "post" "app/trust_device/add" tk e (by exact htk) (by exact hexp) hfut
    (by show (net (s.netIdx + 1)).status ≠ 401; simp [h2s])
  have hr3 := request_valid_token f net now ({ s with netIdx := s.netIdx + 1 + 1 })
    "get" "app/trust_device/list" tk e (by exact htk) (by exact hexp) hfut
    (by show (net (s.netIdx + 1 + 1)).status ≠ 401
        rw [show s.netIdx + 1 + 1 = s.netIdx + 2 from rfl, h3]
        simp)
  have h3b : net (s.netIdx + 1 + 1) = ⟨200, 0, m3, RespData.trustList (some l)⟩ := by
    rw [show s.netIdx + 1 + 1 = s.netIdx + 2 from rfl]
    exact h3
  rw [show f + 3 = (f + 1 + 1) + 1 from rfl]
  simp only [addTrustDevice, listTrustDevice, hr1, hr2, hr3, h1s, h1c, h2s, h2c, h3b,
    ResponseErrorCode.CODE_WHATEVER_ERROR, if_true]
  refine ⟨_, _, rfl, ?_, ?_⟩
  · intro hex
    show (trustFold l { s with netIdx := s.netIdx + 1 + 1 + 1 }).tokenExpiration
      = some s.trustedTokenExpiration
    rw [trustFold_exp, if_pos hex]
  · intro hnex
    show (trustFold l { s with netIdx := s.netIdx + 1 + 1 + 1 }).tokenExpiration = some e
    rw [trustFold_exp, if_neg hnex]
    exact hexp

theorem SegOk.refl (s : ApiState) : SegOk s s [] :=
  ⟨fun h => h, rfl⟩

theorem cClose_append (t1 t2 : List Ev) : cClose (t1 ++ t2) = cClose t1 + cClose t2 :=
  List.countP_append _ _ _

theorem c401_append (t1 t2 : List Ev) : c401 (t1 ++ t2) = c401 t1 + c401 t2 :=
  List.countP_append _ _ _

theorem SegOk.trans {s s1 s2 : ApiState} {t1 t2 : List Ev}
    (h1 : SegOk s s1 t1) (h2 : SegOk s1 s2 t2) : SegOk s s2 (t1 ++ t2) :=
  ⟨fun h => h2.1 (h1.1 h), by rw [cClose_append, c401_append, h1.2, h2.2]⟩

theorem SegOk.cons_invalidate {s s2 : ApiState} {t : List Ev} (h : SegOk s s2 t) :
    SegOk s s2 (Ev.invalidate :: t) := by
  refine ⟨h.1, ?_⟩
  have := h.2
  simp [cClose, c401, List.countP_cons, is401, isClose] at this ⊢
  exact this

theorem tokenInv_of_token_none {s : ApiState} (h : s.token = none) : TokenInv s :=
  fun hne => absurd h hne

theorem finishReq_bundle (net : Net) (now : Int) (s2' : ApiState) (t1 t2 : List Ev)
    (m ep : String) (r : Response) (s2 : ApiState) (t : List Ev)
    (h : (if (net s2'.netIdx).status = 401 then
        some (net s2'.netIdx,
          { invalidateToken { s2' with netIdx := s2'.netIdx + 1 } with connected := false },
          t1 ++ t2 ++ [Ev.http s2'.apiBase m ep (net s2'.netIdx).status s2'.tokenExpiration,
            Ev.invalidate, Ev.close])
      else
        some (net s2'.netIdx, { s2' with netIdx := s2'.netIdx + 1 },
          t1 ++ t2 ++ [Ev.http s2'.apiBase m ep (net s2'.netIdx).status s2'.tokenExpiration]))
      = some (r, s2, t)) :
    (∃ t3, t = t1 ++ t2 ++ t3 ∧ SegOk s2' s2 t3) ∧
    (expOk now s2'.tokenExpiration → expOk now s2.tokenExpiration) ∧ (∃ i, r = net i) ∧
    (r.status = 401 →
      s2.token = none ∧ s2.tokenExpiration = none ∧ s2.connected = false) := by
  by_cases h401 : (net s2'.netIdx).status = 401
  · rw [if_pos h401] at h
    simp only [Option.some.injEq, Prod.mk.injEq] at h
    obtain ⟨rfl, rfl, rfl⟩ := h
    refine ⟨⟨_, rfl, ?_, ?_⟩, fun _ => Or.inl rfl, ⟨s2'.netIdx, rfl⟩,
      fun _ => ⟨rfl, rfl, rfl⟩⟩
    · exact fun _ => tokenInv_of_token_none rfl
    · simp [cClose, c401, List.countP_cons, is401, isClose, h401]
  · rw [if_neg h401] at h
    simp only [Option.some.injEq, Prod.mk.injEq] at h
    obtain ⟨rfl, rfl, rfl⟩ := h
    refine ⟨⟨_, rfl, ?_, ?_⟩, fun hh => hh, ⟨s2'.netIdx, rfl⟩,
      fun hcon => absurd hcon h401⟩
    · exact fun hh => hh
    · simp [cClose, c401, List.countP_cons, is401, isClose, h401]

theorem requestTail_bundle (fuel : Nat) (net : Net) (now : Int)
    (ihA : ∀ (s : ApiState) (a : AuthResult) (s2 : ApiState) (t : List Ev),
      authenticate fuel net now s = some (a, s2, t) →
      SegOk s s2 t ∧ (freshLogins net now → expOk now s2.tokenExpiration))
    (s1 : ApiState) (t1 : List Ev) (m ep : String) (r : Response) (s2 : ApiState)
    (t : List Ev)
    (h : (match
        (match s1.tokenExpiration with
          | some e =>
            if e ≤ now then
              if ep ≠ "passport/login" then
                match authenticate fuel net now (invalidateToken s1) with
                | none => none
                | some (_, s3, t3) => some (s3, Ev.invalidate :: t3)
              else some (invalidateToken s1, [Ev.invalidate])
            else some (s1, ([] : List Ev))
          | none => some (s1, ([] : List Ev))) with
      | none => none
      | some (s2', t2) =>
        if (net s2'.netIdx).status = 401 then
          some (net s2'.netIdx,
            { invalidateToken { s2' with netIdx := s2'.netIdx + 1 } with connected := false },
            t1 ++ t2 ++ [Ev.http s2'.apiBase m ep (net s2'.netIdx).status s2'.tokenExpiration,
              Ev.invalidate, Ev.close])
        else
          some (net s2'.netIdx, { s2' with netIdx := s2'.netIdx + 1 },
            t1 ++ t2 ++ [Ev.http s2'.apiBase m ep (net s2'.netIdx).status s2'.tokenExpiration]))
      = some (r, s2, t)) :
    (∃ t2', t = t1 ++ t2' ∧ SegOk s1 s2 t2') ∧
    (freshLogins net now → expOk now s2.tokenExpiration) ∧ (∃ i, r = net i) ∧
    (r.status = 401 →
      s2.token = none ∧ s2.tokenExpiration = none ∧ s2.connected = false) := by
  cases hexp : s1.tokenExpiration with
  | none =>
    rw [hexp] at h
    obtain ⟨⟨t3, rfl, hseg⟩, himpl, hor, h4⟩ :=
      finishReq_bundle net now s1 t1 [] m ep r s2 t h
    exact ⟨⟨t3, by simp, hseg⟩, fun _ => himpl (Or.inl hexp), hor, h4⟩
  | some e =>
    rw [hexp] at h
    simp only [] at h
    by_cases he : e ≤ now
    · rw [if_pos he] at h
      by_cases hep : ep ≠ "passport/login"
      · rw [if_pos hep] at h
        cases ha : authenticate fuel net now (invalidateToken s1) with
        | none => rw [ha] at h; simp at h
        | some v =>
          obtain ⟨a3, s3, t3⟩ := v
          rw [ha] at h
          obtain ⟨hseg3, hexp3⟩ := ihA _ _ _ _ ha
          obtain ⟨⟨t4, rfl, hseg4⟩, himpl, hor, h4⟩ :=
            finishReq_bundle net now s3 t1 (Ev.invalidate :: t3) m ep r s2 t h
          refine ⟨⟨(Ev.invalidate :: t3) ++ t4, by simp, ?_⟩, ?_, hor, h4⟩
          · exact SegOk.trans
              (SegOk.cons_invalidate
                ⟨fun _ => hseg3.1 (tokenInv_of_token_none rfl), hseg3.2⟩) hseg4
          · intro hfresh
            exact himpl (hexp3 hfresh)
      · rw [if_neg hep] at h
        obtain ⟨⟨t4, rfl, hseg4⟩, himpl, hor, h4⟩ :=
          finishReq_bundle net now (invalidateToken s1) t1 [Ev.invalidate] m ep r s2 t h
        refine ⟨⟨[Ev.invalidate] ++ t4, by simp, ?_⟩, fun _ => himpl (Or.inl rfl), hor, h4⟩
        exact SegOk.trans
          (SegOk.cons_invalidate ⟨fun _ => tokenInv_of_token_none rfl, rfl⟩) hseg4
    · rw [if_neg he] at h
      obtain ⟨⟨t4, rfl, hseg4⟩, himpl, hor, h4⟩ :=
        finishReq_bundle net now s1 t1 [] m ep r s2 t h
      exact ⟨⟨t4, by simp, hseg4⟩, fun _ => himpl (Or.inr ⟨e, hexp, not_le.mp he⟩), hor,
        h4⟩

theorem runBundle : ∀ fuel : Nat,
    (∀ (net : Net) (now : Int) (s : ApiState) (m ep : String) (r : Response)
      (s2 : ApiState) (t : List Ev),
      request fuel net now s m ep = some (r, s2, t) →
      SegOk s s2 t ∧ (freshLogins net now → expOk now s2.tokenExpiration) ∧
        (∃ i, r = net i) ∧
        (r.status = 401 →
          s2.token = none ∧ s2.tokenExpiration = none ∧ s2.connected = false)) ∧
    (∀ (net : Net) (now : Int) (s : ApiState) (a : AuthResult) (s2 : ApiState)
      (t : List Ev),
      authenticate fuel net now s = some (a, s2, t) →
      SegOk s s2 t ∧ (freshLogins net now → expOk now s2.tokenExpiration)) ∧
    (∀ (net : Net) (now : Int) (s : ApiState) (b : Bool) (s2 : ApiState) (t : List Ev),
      sendVerifyCode fuel net now s = some (b, s2, t) →
      SegOk s s2 t ∧ (freshLogins net now → expOk now s2.tokenExpiration)) := by
  intro fuel
  induction fuel with
  | zero =>
    refine ⟨?_, ?_, ?_⟩
    · intro net now s m ep r s2 t h
      simp [request] at h
    · intro net now s a s2 t h
      simp [authenticate] at h
    · intro net now s b s2 t h
      simp [sendVerifyCode] at h
  | succ fuel ih =>
    obtain ⟨ihR, ihA, ihS⟩ := ih
    refine ⟨?_, ?_, ?_⟩
    · -- request (fuel+1)
      intro net now s m ep r s2 t h
      simp only [request] at h
      by_cases hc1 : s.token = none ∧ ep ≠ "passport/login"
      · rw [if_pos hc1] at h
        cases ha1 : authenticate fuel net now s with
        | none => rw [ha1] at h; simp at h
        | some v1 =>
          obtain ⟨a1, s1, t1⟩ := v1
          rw [ha1] at h
          obtain ⟨hseg1, hexp1⟩ := ihA net now s a1 s1 t1 ha1
          cases a1 with
          | RENEW =>
            simp only [] at h
            cases ha2 : authenticate fuel net now s1 with
            | none => rw [ha2] at h; simp at h
            | some v2 =>
              obtain ⟨a2, s12, t2⟩ := v2
              rw [ha2] at h
              simp only [] at h
              obtain ⟨hseg2, hexp2⟩ := ihA net now s1 a2 s12 t2 ha2
              obtain ⟨⟨t3, rfl, hseg3⟩, hexpF, hor, h4⟩ :=
                requestTail_bundle fuel net now (fun s' a' s2' t' => ihA net now s' a' s2' t')
                  s12 (t1 ++ t2) m ep r s2 _ h
              exact ⟨SegOk.trans (SegOk.trans hseg1 hseg2) hseg3, hexpF, hor, h4⟩
          | OK =>
            simp only [] at h
            obtain ⟨⟨t3, rfl, hseg3⟩, hexpF, hor, h4⟩ :=
              requestTail_bundle fuel net now (fun s' a' s2' t' => ihA net now s' a' s2' t')
                s1 t1 m ep r s2 _ h
            exact ⟨SegOk.trans hseg1 hseg3, hexpF, hor, h4⟩
          | SEND_VERIFY_CODE =>
            simp only [] at h
            obtain ⟨⟨t3, rfl, hseg3⟩, hexpF, hor, h4⟩ :=
              requestTail_bundle fuel net now (fun s' a' s2' t' => ihA net now s' a' s2' t')
                s1 t1 m ep r s2 _ h
            exact ⟨SegOk.trans hseg1 hseg3, hexpF, hor, h4⟩
          | ERROR =>
            simp only [] at h
            obtain ⟨⟨t3, rfl, hseg3⟩, hexpF, hor, h4⟩ :=
              requestTail_bundle fuel net now (fun s' a' s2' t' => ihA net now s' a' s2' t')
                s1 t1 m ep r s2 _ h
            exact ⟨SegOk.trans hseg1 hseg3, hexpF, hor, h4⟩
      · rw [if_neg hc1] at h
        simp only [] at h
        obtain ⟨⟨t3, rfl, hseg3⟩, hexpF, hor, h4⟩ :=
          requestTail_bundle fuel net now (fun s' a' s2' t' => ihA net now s' a' s2' t')
            s [] m ep r s2 _ h
        exact ⟨hseg3, hexpF, hor, h4⟩
    · -- authenticate (fuel+1)
      intro net now s a s2 t h
      simp only [authenticate] at h
      by_cases hstale : tokenStale now s = true
      · rw [if_pos hstale] at h
        cases hreq : request fuel net now s "post" "passport/login" with
        | none => rw [hreq] at h; simp at h
        | some v1 =>
          obtain ⟨resp, s1, t1⟩ := v1
          rw [hreq] at h
          simp only [] at h
          obtain ⟨hseg1, hexp1, ⟨i, hi⟩, _⟩ := ihR net now s "post" "passport/login" resp s1 t1 hreq
          by_cases hst200 : resp.status = 200
          · rw [if_pos hst200] at h
            by_cases hcode : resp.code = ResponseErrorCode.CODE_WHATEVER_ERROR
            · rw [if_pos hcode] at h
              cases hdata : resp.data with
              | login d =>
                rw [hdata] at h
                simp only [] at h
                cases hdom : d.domain with
                | some dom =>
                  rw [hdom] at h
                  simp only [] at h
                  by_cases hbase : "https://" ++ dom ++ "/v1" ≠ s1.apiBase
                  · rw [if_pos hbase] at h
                    simp only [Option.some.injEq, Prod.mk.injEq] at h
                    obtain ⟨rfl, rfl, rfl⟩ := h
                    exact ⟨⟨fun _ => tokenInv_of_token_none rfl, hseg1.2⟩,
                      fun _ => Or.inl rfl⟩
                  · rw [if_neg hbase] at h
                    simp only [Option.some.injEq, Prod.mk.injEq] at h
                    obtain ⟨rfl, rfl, rfl⟩ := h
                    refine ⟨⟨fun _ hne => by simp, ?_⟩, ?_⟩
                    · rw [cClose_append, c401_append, hseg1.2]
                      simp [cClose, c401, isClose, is401]
                    · intro hfresh
                      exact Or.inr ⟨d.token_expires_at * 1000, rfl,
                        hfresh i d (hi ▸ hdata)⟩
                | none =>
                  rw [hdom] at h
                  simp only [Option.some.injEq, Prod.mk.injEq] at h
                  obtain ⟨rfl, rfl, rfl⟩ := h
                  refine ⟨⟨fun _ hne => by simp, ?_⟩, ?_⟩
                  · rw [cClose_append, c401_append, hseg1.2]
                    simp [cClose, c401, isClose, is401]
                  · intro hfresh
                    exact Or.inr ⟨d.token_expires_at * 1000, rfl, hfresh i d (hi ▸ hdata)⟩
              | empty =>
                rw [hdata] at h
                simp only [Option.some.injEq, Prod.mk.injEq] at h
                obtain ⟨rfl, rfl, rfl⟩ := h
                exact ⟨hseg1, hexp1⟩
              | hubList l =>
                rw [hdata] at h
                simp only [Option.some.injEq, Prod.mk.injEq] at h
                obtain ⟨rfl, rfl, rfl⟩ := h
                exact ⟨hseg1, hexp1⟩
              | devList l =>
                rw [hdata] at h
                simp only [Option.some.injEq, Prod.mk.injEq] at h
                obtain ⟨rfl, rfl, rfl⟩ := h
                exact ⟨hseg1, hexp1⟩
              | trustList l =>
                rw [hdata] at h
                simp only [Option.some.injEq, Prod.mk.injEq] at h
                obtain ⟨rfl, rfl, rfl⟩ := h
                exact ⟨hseg1, hexp1⟩
            · rw [if_neg hcode] at h
              by_cases hc26 : resp.code = ResponseErrorCode.CODE_NEED_VERIFY_CODE
              · rw [if_pos hc26] at h
                cases hdata : resp.data with
                | login d =>
                  rw [hdata] at h
                  simp only [] at h
                  cases hsend : sendVerifyCode fuel net now
                      { s1 with
                          token := some d.auth_token,
                          tokenExpiration := some (d.token_expires_at * 1000) } with
                  | none => rw [hsend] at h; simp at h
                  | some v3 =>
                    obtain ⟨b3, s3, t3⟩ := v3
                    rw [hsend] at h
                    simp only [Option.some.injEq, Prod.mk.injEq] at h
                    obtain ⟨rfl, rfl, rfl⟩ := h
                    obtain ⟨hseg3, hexp3⟩ := ihS net now _ b3 s3 t3 hsend
                    refine ⟨SegOk.trans hseg1 ⟨fun _ => hseg3.1 (fun _ => by simp),
                      hseg3.2⟩, hexp3⟩
                | empty =>
                  rw [hdata] at h
                  simp only [Option.some.injEq, Prod.mk.injEq] at h
                  obtain ⟨rfl, rfl, rfl⟩ := h
                  exact ⟨hseg1, hexp1⟩
                | hubList l =>
                  rw [hdata] at h
                  simp only [Option.some.injEq, Prod.mk.injEq] at h
                  obtain ⟨rfl, rfl, rfl⟩ := h
                  exact ⟨hseg1, hexp1⟩
                | devList l =>
                  rw [hdata] at h
                  simp only [Option.some.injEq, Prod.mk.injEq] at h
                  obtain ⟨rfl, rfl, rfl⟩ := h
                  exact ⟨hseg1, hexp1⟩
                | trustList l =>
                  rw [hdata] at h
                  simp only [Option.some.injEq, Prod.mk.injEq] at h
                  obtain ⟨rfl, rfl, rfl⟩ := h
                  exact ⟨hseg1, hexp1⟩
              · rw [if_neg hc26] at h
                simp only [Option.some.injEq, Prod.mk.injEq] at h
                obtain ⟨rfl, rfl, rfl⟩ := h
                exact ⟨hseg1, hexp1⟩
          · rw [if_neg hst200] at h
            simp only [Option.some.injEq, Prod.mk.injEq] at h
            obtain ⟨rfl, rfl, rfl⟩ := h
            exact ⟨hseg1, hexp1⟩
      · rw [if_neg hstale] at h
        simp only [Option.some.injEq, Prod.mk.injEq] at h
        obtain ⟨rfl, rfl, rfl⟩ := h
        have hsf : tokenStale now s = false := by
          revert hstale
          cases tokenStale now s <;> simp
        refine ⟨⟨fun hh => hh, by simp [cClose, c401, isClose, is401]⟩, ?_⟩
        intro _
        have := hsf
        rw [tokenStale] at this
        simp only [Bool.or_eq_false_iff] at this
        cases hexp2 : s.tokenExpiration with
        | none => exact Or.inl rfl
        | some e =>
          rw [hexp2] at this
          simp at this
          exact Or.inr ⟨e, rfl, this.2⟩
    · -- sendVerifyCode (fuel+1)
      intro net now s b s2 t h
      simp only [sendVerifyCode] at h
      cases hreq : request fuel net now s "post" "sms/send/verify_code" with
      | none => rw [hreq] at h; simp at h
      | some v1 =>
        obtain ⟨resp, s1, t1⟩ := v1
        rw [hreq] at h
        simp only [] at h
        obtain ⟨hseg1, hexp1, _, _⟩ := ihR net now s "post" "sms/send/verify_code" resp s1 t1 hreq
        by_cases hst200 : resp.status = 200
        · rw [if_pos hst200] at h
          by_cases hcode : resp.code = ResponseErrorCode.CODE_WHATEVER_ERROR
          · rw [if_pos hcode] at h
            simp only [Option.some.injEq, Prod.mk.injEq] at h
            obtain ⟨rfl, rfl, rfl⟩ := h
            exact ⟨hseg1, hexp1⟩
          · rw [if_neg hcode] at h
            simp only [Option.some.injEq, Prod.mk.injEq] at h
            obtain ⟨rfl, rfl, rfl⟩ := h
            exact ⟨hseg1, hexp1⟩
        · rw [if_neg hst200] at h
          simp only [Option.some.injEq, Prod.mk.injEq] at h
          obtain ⟨rfl, rfl, rfl⟩ := h
          exact ⟨hseg1, hexp1⟩

/-- C2: on every `request` run, `close` is emitted exactly once per HTTP response
with status 401 (`cClose t = c401 t`), and a 401-status result leaves the token
and `tokenExpiration` cleared and the connected flag false before the response
is returned to the caller. -/
theorem claim_C2_401_closes_session (fuel : Nat) (net : Net) (now : Int) (s : ApiState)
    (m ep : String) (r : Response) (s2 : ApiState) (t : List Ev)
    (h : request fuel net now s m ep = some (r, s2, t)) :
    cClose t = c401 t ∧
    (r.status = 401 →
      s2.token = none ∧ s2.tokenExpiration = none ∧ s2.connected = false) :=
  ⟨((runBundle fuel).1 net now s m ep r s2 t h).1.2,
    ((runBundle fuel).1 net now s m ep r s2 t h).2.2.2⟩

theorem finishReq_decomp (net : Net) (now : Int) (s2' : ApiState) (t1 t2 : List Ev)
    (m ep : String) (r : Response) (s2 : ApiState) (t : List Ev)
    (h : (if (net s2'.netIdx).status = 401 then
        some (net s2'.netIdx,
          { invalidateToken { s2' with netIdx := s2'.netIdx + 1 } with connected := false },
          t1 ++ t2 ++ [Ev.http s2'.apiBase m ep (net s2'.netIdx).status s2'.tokenExpiration,
            Ev.invalidate, Ev.close])
      else
        some (net s2'.netIdx, { s2' with netIdx := s2'.netIdx + 1 },
          t1 ++ t2 ++ [Ev.http s2'.apiBase m ep (net s2'.netIdx).status s2'.tokenExpiration]))
      = some (r, s2, t)) :
    ∃ post, t = t1 ++ t2 ++
      Ev.http s2'.apiBase m ep (net s2'.netIdx).status s2'.tokenExpiration :: post := by
  by_cases h401 : (net s2'.netIdx).status = 401
  · rw [if_pos h401] at h
    simp only [Option.some.injEq, Prod.mk.injEq] at h
    obtain ⟨rfl, rfl, rfl⟩ := h
    exact ⟨[Ev.invalidate, Ev.close], by simp⟩
  · rw [if_neg h401] at h
    simp only [Option.some.injEq, Prod.mk.injEq] at h
    obtain ⟨rfl, rfl, rfl⟩ := h
    exact ⟨[], by simp⟩

theorem requestTail_has_http (fuel : Nat) (net : Net) (now : Int)
    (s1 : ApiState) (t1 : List Ev) (m ep : String) (r : Response) (s2 : ApiState)
    (t : List Ev)
    (h : (match
        (match s1.tokenExpiration with
          | some e =>
            if e ≤ now then
              if ep ≠ "passport/login" then
                match authenticate fuel net now (invalidateToken s1) with
                | none => none
                | some (_, s3, t3) => some (s3, Ev.invalidate :: t3)
              else some (invalidateToken s1, [Ev.invalidate])
            else some (s1, ([] : List Ev))
          | none => some (s1, ([] : List Ev))) with
      | none => none
      | some (s2', t2) =>
        if (net s2'.netIdx).status = 401 then
          some (net s2'.netIdx,
            { invalidateToken { s2' with netIdx := s2'.netIdx + 1 } with connected := false },
            t1 ++ t2 ++ [Ev.http s2'.apiBase m ep (net s2'.netIdx).status s2'.tokenExpiration,
              Ev.invalidate, Ev.close])
        else
          some (net s2'.netIdx, { s2' with netIdx := s2'.netIdx + 1 },
            t1 ++ t2 ++ [Ev.http s2'.apiBase m ep (net s2'.netIdx).status s2'.tokenExpiration]))
      = some (r, s2, t)) :
    ∃ b st ex, Ev.http b m ep st ex ∈ t := by
  cases hexp : s1.tokenExpiration with
  | none =>
    rw [hexp] at h
    obtain ⟨post, rfl⟩ := finishReq_decomp net now s1 t1 [] m ep r s2 t h
    exact ⟨s1.apiBase, (net s1.netIdx).status, s1.tokenExpiration, by simp⟩
  | some e =>
    rw [hexp] at h
    simp only [] at h
    by_cases he : e ≤ now
    · rw [if_pos he] at h
      by_cases hep : ep ≠ "passport/login"
      · rw [if_pos hep] at h
        cases ha : authenticate fuel net now (invalidateToken s1) with
        | none => rw [ha] at h; simp at h
        | some v =>
          obtain ⟨a3, s3, t3⟩ := v
          rw [ha] at h
          obtain ⟨post, rfl⟩ :=
            finishReq_decomp net now s3 t1 (Ev.invalidate :: t3) m ep r s2 t h
          exact ⟨s3.apiBase, (net s3.netIdx).status, s3.tokenExpiration, by simp⟩
      · rw [if_neg hep] at h
        obtain ⟨post, rfl⟩ :=
          finishReq_decomp net now (invalidateToken s1) t1 [Ev.invalidate] m ep r s2 t h
        exact ⟨(invalidateToken s1).apiBase, (net (invalidateToken s1).netIdx).status,
          (invalidateToken s1).tokenExpiration, by simp⟩
    · rw [if_neg he] at h
      obtain ⟨post, rfl⟩ := finishReq_decomp net now s1 t1 [] m ep r s2 t h
      exact ⟨s1.apiBase, (net s1.netIdx).status, s1.tokenExpiration, by simp⟩

theorem request_has_http (fuel : Nat) (net : Net) (now : Int) (s : ApiState)
    (m ep : String) (r : Response) (s2 : ApiState) (t : List Ev)
    (h : request fuel net now s m ep = some (r, s2, t)) :
    ∃ b st ex, Ev.http b m ep st ex ∈ t := by
  cases fuel with
  | zero => simp [request] at h
  | succ fuel =>
    simp only [request] at h
    by_cases hc1 : s.token = none ∧ ep ≠ "passport/login"
    · rw [if_pos hc1] at h
      cases ha1 : authenticate fuel net now s with
      | none => rw [ha1] at h; simp at h
      | some v1 =>
        obtain ⟨a1, s1, t1⟩ := v1
        rw [ha1] at h
        cases a1 with
        | RENEW =>
          simp only [] at h
          cases ha2 : authenticate fuel net now s1 with
          | none => rw [ha2] at h; simp at h
          | some v2 =>
            obtain ⟨a2, s12, t2⟩ := v2
            rw [ha2] at h
            simp only [] at h
            exact requestTail_has_http fuel net now s12 (t1 ++ t2) m ep r s2 t h
        | OK =>
          simp only [] at h
          exact requestTail_has_http fuel net now s1 t1 m ep r s2 t h
        | SEND_VERIFY_CODE =>
          simp only [] at h
          exact requestTail_has_http fuel net now s1 t1 m ep r s2 t h
        | ERROR =>
          simp only [] at h
          exact requestTail_has_http fuel net now s1 t1 m ep r s2 t h
    · rw [if_neg hc1] at h
      simp only [] at h
      exact requestTail_has_http fuel net now s [] m ep r s2 t h

theorem auth_has_login_http (fuel : Nat) (net : Net) (now : Int) (s : ApiState)
    (a : AuthResult) (s2 : ApiState) (t : List Ev) (htok : s.token = none)
    (h : authenticate fuel net now s = some (a, s2, t)) :
    ∃ b m2 st ex, Ev.http b m2 "passport/login" st ex ∈ t := by
  cases fuel with
  | zero => simp [authenticate] at h
  | succ fuel =>
    simp only [authenticate] at h
    have hstale : tokenStale now s = true := by
      simp [tokenStale, htok]
    rw [if_pos hstale] at h
    cases hreq : request fuel net now s "post" "passport/login" with
    | none => rw [hreq] at h; simp at h
    | some v1 =>
      obtain ⟨resp, s1, t1⟩ := v1
      rw [hreq] at h
      simp only [] at h
      obtain ⟨b, st, ex, hmem⟩ :=
        request_has_http fuel net now s "post" "passport/login" resp s1 t1 hreq
      repeat' split at h
      all_goals
        first
        | exact Option.noConfusion h
        | (simp only [Option.some.injEq, Prod.mk.injEq] at h
           obtain ⟨-, rfl, rfl⟩ := h
           exact ⟨b, "post", st, ex, by simp [hmem]⟩)

theorem requestTail_decomp (fuel : Nat) (net : Net) (now : Int)
    (s1 : ApiState) (t1 : List Ev) (m ep : String) (r : Response) (s2 : ApiState)
    (t : List Ev)
    (h : (match
        (match s1.tokenExpiration with
          | some e =>
            if e ≤ now then
              if ep ≠ "passport/login" then
                match authenticate fuel net now (invalidateToken s1) with
                | none => none
                | some (_, s3, t3) => some (s3, Ev.invalidate :: t3)
              else some (invalidateToken s1, [Ev.invalidate])
            else some (s1, ([] : List Ev))
          | none => some (s1, ([] : List Ev))) with
      | none => none
      | some (s2', t2) =>
        if (net s2'.netIdx).status = 401 then
          some (net s2'.netIdx,
            { invalidateToken { s2' with netIdx := s2'.netIdx + 1 } with connected := false },
            t1 ++ t2 ++ [Ev.http s2'.apiBase m ep (net s2'.netIdx).status s2'.tokenExpiration,
              Ev.invalidate, Ev.close])
        else
          some (net s2'.netIdx, { s2' with netIdx := s2'.netIdx + 1 },
            t1 ++ t2 ++ [Ev.http s2'.apiBase m ep (net s2'.netIdx).status s2'.tokenExpiration]))
      = some (r, s2, t)) :
    ∃ t2' b st ex post,
      t = t1 ++ (t2' ++ Ev.http b m ep st ex :: post) ∧
      (freshLogins net now → expOk now ex) ∧
      (∀ e, s1.tokenExpiration = some e → e ≤ now →
        Ev.invalidate ∈ t2' ∧
        (ep ≠ "passport/login" →
          ∃ b2 m2 st2 ex2, Ev.http b2 m2 "passport/login" st2 ex2 ∈ t2')) := by
  cases hexp : s1.tokenExpiration with
  | none =>
    rw [hexp] at h
    obtain ⟨post, rfl⟩ := finishReq_decomp net now s1 t1 [] m ep r s2 t h
    refine ⟨[], s1.apiBase, (net s1.netIdx).status, s1.tokenExpiration, post, by simp, ?_, ?_⟩
    · intro _
      exact Or.inl hexp
    · intro e he
      exact Option.noConfusion he
  | some e =>
    rw [hexp] at h
    simp only [] at h
    by_cases he : e ≤ now
    · rw [if_pos he] at h
      by_cases hep : ep ≠ "passport/login"
      · rw [if_pos hep] at h
        cases ha : authenticate fuel net now (invalidateToken s1) with
        | none => rw [ha] at h; simp at h
        | some v =>
          obtain ⟨a3, s3, t3⟩ := v
          rw [ha] at h
          obtain ⟨post, rfl⟩ :=
            finishReq_decomp net now s3 t1 (Ev.invalidate :: t3) m ep r s2 t h
          refine ⟨Ev.invalidate :: t3, s3.apiBase, (net s3.netIdx).status,
            s3.tokenExpiration, post, by simp, ?_, ?_⟩
          · intro hfresh
            exact ((runBundle fuel).2.1 net now (invalidateToken s1) a3 s3 t3 ha).2 hfresh
          · intro e2 _ _
            refine ⟨List.mem_cons_self _ _, fun _ => ?_⟩
            obtain ⟨b2, m2, st2, ex2, hmem⟩ :=
              auth_has_login_http fuel net now (invalidateToken s1) a3 s3 t3 rfl ha
            exact ⟨b2, m2, st2, ex2, List.mem_cons_of_mem _ hmem⟩
      · rw [if_neg hep] at h
        obtain ⟨post, rfl⟩ :=
          finishReq_decomp net now (invalidateToken s1) t1 [Ev.invalidate] m ep r s2 t h
        refine ⟨[Ev.invalidate], (invalidateToken s1).apiBase,
          (net (invalidateToken s1).netIdx).status, (invalidateToken s1).tokenExpiration,
          post, by simp, fun _ => Or.inl rfl, ?_⟩
        intro e2 _ _
        exact ⟨List.mem_cons_self _ _, fun hcon => absurd hcon hep⟩
    · rw [if_neg he] at h
      obtain ⟨post, rfl⟩ := finishReq_decomp net now s1 t1 [] m ep r s2 t h
      refine ⟨[], s1.apiBase, (net s1.netIdx).status, s1.tokenExpiration, post, by simp,
        ?_, ?_⟩
      · intro _
        exact Or.inr ⟨e, hexp, not_le.mp he⟩
      · intro e2 he2 hle2
        obtain rfl := Option.some.inj he2
        exact absurd hle2 he

theorem request_expired_invalidate (fuel : Nat) (net : Net) (now : Int) (s : ApiState)
    (m : String) (e : Int) (r : Response) (s2 : ApiState) (t : List Ev)
    (hexp : s.tokenExpiration = some e) (hpast : e ≤ now)
    (h : request fuel net now s m "passport/login" = some (r, s2, t)) :
    Ev.invalidate ∈ t := by
  cases fuel with
  | zero => simp [request] at h
  | succ fuel =>
    simp only [request] at h
    rw [if_neg (by simp)] at h
    simp only [] at h
    obtain ⟨t2', b, st, ex, post, rfl, _, hcond⟩ :=
      requestTail_decomp fuel net now s [] m "passport/login" r s2 _ h
    obtain ⟨hinv, _⟩ := hcond e hexp hpast
    simp [hinv]

theorem auth_run_split (fuel : Nat) (net : Net) (now : Int) (s : ApiState)
    (a : AuthResult) (s2 : ApiState) (t : List Ev) (hstale : tokenStale now s = true)
    (h : authenticate (fuel + 1) net now s = some (a, s2, t)) :
    ∃ resp s1 t1 rest, request fuel net now s "post" "passport/login" = some (resp, s1, t1)
      ∧ t = t1 ++ rest := by
  simp only [authenticate] at h
  rw [if_pos hstale] at h
  cases hreq : request fuel net now s "post" "passport/login" with
  | none => rw [hreq] at h; simp at h
  | some v1 =>
    obtain ⟨resp, s1, t1⟩ := v1
    rw [hreq] at h
    simp only [] at h
    repeat' split at h
    all_goals
      first
      | exact Option.noConfusion h
      | (simp only [Option.some.injEq, Prod.mk.injEq] at h
         obtain ⟨-, rfl, rfl⟩ := h
         first
         | exact ⟨resp, s1, t1, _, rfl, rfl⟩
         | exact ⟨resp, s1, t1, [], rfl, (List.append_nil t1).symm⟩)

theorem auth_expired_has_invalidate (fuel : Nat) (net : Net) (now : Int) (s : ApiState)
    (a : AuthResult) (s2 : ApiState) (t : List Ev) (e : Int)
    (hexp : s.tokenExpiration = some e) (hpast : e ≤ now)
    (h : authenticate fuel net now s = some (a, s2, t)) :
    Ev.invalidate ∈ t := by
  cases fuel with
  | zero => simp [authenticate] at h
  | succ fuel =>
    obtain ⟨resp, s1, t1, rest, hreq, rfl⟩ :=
      auth_run_split fuel net now s a s2 t (by simp [tokenStale, hexp, hpast]) h
    have := request_expired_invalidate fuel net now s "post" e resp s1 t1 hexp hpast hreq
    simp [this]

/-- C1 (amended): any `request` performed while the held `tokenExpiration` is at
or before the clock `now` invalidates the session before the outgoing HTTP call
is issued, and, for a non-login endpoint, performs a re-authentication attempt
(a login HTTP call) before it; and, provided the server only issues
not-yet-expired login payloads (`freshLogins`), the expiry recorded at the
moment the dispatched call is issued is absent or strictly in the future.  The
original claim's unconditional never-dispatched-while-expired clause is false:
the expiry guard at the head of `request` is not re-run after `authenticate`
stores the server-supplied expiry, so a stale login payload is dispatched with
a past expiry — see `claim_C1_counterexample`. -/
theorem claim_C1_expired_token_preflight (fuel : Nat) (net : Net) (now : Int)
    (s : ApiState) (m ep : String) (e : Int) (r : Response) (s2 : ApiState) (t : List Ev)
    (hexp : s.tokenExpiration = some e) (hpast : e ≤ now) (hfresh : freshLogins net now)
    (h : request fuel net now s m ep = some (r, s2, t)) :
    ∃ pre b st ex post, t = pre ++ Ev.http b m ep st ex :: post ∧
      Ev.invalidate ∈ pre ∧
      (ep ≠ "passport/login" →
        ∃ b2 m2 st2 ex2, Ev.http b2 m2 "passport/login" st2 ex2 ∈ pre) ∧
      expOk now ex := by
  cases fuel with
  | zero => simp [request] at h
  | succ fuel =>
    simp only [request] at h
    by_cases hc1 : s.token = none ∧ ep ≠ "passport/login"
    · rw [if_pos hc1] at h
      cases ha1 : authenticate fuel net now s with
      | none => rw [ha1] at h; simp at h
      | some v1 =>
        obtain ⟨a1, s1, t1⟩ := v1
        rw [ha1] at h
        have hinv1 : Ev.invalidate ∈ t1 :=
          auth_expired_has_invalidate fuel net now s a1 s1 t1 e hexp hpast ha1
        obtain ⟨bL, mL, stL, exL, hlog1⟩ :=
          auth_has_login_http fuel net now s a1 s1 t1 hc1.1 ha1
        cases a1 with
        | RENEW =>
          simp only [] at h
          cases ha2 : authenticate fuel net now s1 with
          | none => rw [ha2] at h; simp at h
          | some v2 =>
            obtain ⟨a2, s12, t2⟩ := v2
            rw [ha2] at h
            simp only [] at h
            obtain ⟨t2', b, st, ex, post, rfl, hexOk, _⟩ :=
              requestTail_decomp fuel net now s12 (t1 ++ t2) m ep r s2 _ h
            refine ⟨(t1 ++ t2) ++ t2', b, st, ex, post, by simp, ?_, ?_, hexOk hfresh⟩
            · simp [hinv1]
            · intro _
              exact ⟨bL, mL, stL, exL, by simp [hlog1]⟩
        | OK =>
          simp only [] at h
          obtain ⟨t2', b, st, ex, post, rfl, hexOk, _⟩ :=
            requestTail_decomp fuel net now s1 t1 m ep r s2 _ h
          refine ⟨t1 ++ t2', b, st, ex, post, by simp, ?_, ?_, hexOk hfresh⟩
          · simp [hinv1]
          · intro _
            exact ⟨bL, mL, stL, exL, by simp [hlog1]⟩
        | SEND_VERIFY_CODE =>
          simp only [] at h
          obtain ⟨t2', b, st, ex, post, rfl, hexOk, _⟩ :=
            requestTail_decomp fuel net now s1 t1 m ep r s2 _ h
          refine ⟨t1 ++ t2', b, st, ex, post, by simp, ?_, ?_, hexOk hfresh⟩
          · simp [hinv1]
          · intro _
            exact ⟨bL, mL, stL, exL, by simp [hlog1]⟩
        | ERROR =>
          simp only [] at h
          obtain ⟨t2', b, st, ex, post, rfl, hexOk, _⟩ :=
            requestTail_decomp fuel net now s1 t1 m ep r s2 _ h
          refine ⟨t1 ++ t2', b, st, ex, post, by simp, ?_, ?_, hexOk hfresh⟩
          · simp [hinv1]
          · intro _
            exact ⟨bL, mL, stL, exL, by simp [hlog1]⟩
    · rw [if_neg hc1] at h
      simp only [] at h
      obtain ⟨t2', b, st, ex, post, rfl, hexOk, hcond⟩ :=
        requestTail_decomp fuel net now s [] m ep r s2 _ h
      obtain ⟨hinv, hlog⟩ := hcond e hexp hpast
      exact ⟨t2', b, st, ex, post, by simp, hinv, hlog, hexOk hfresh⟩

/-- C1 counterexample: with an expired token held (`tokenExpiration = some 0`
at `now = 0`) and a server whose login payload is itself already expired
(stored expiry `-1000`), `request` invalidates and re-authenticates but then
dispatches the outgoing call anyway, recording the past expiry `some (-1000)`
at the moment of issue — refuting the original claim's unconditional
never-issued-while-expired clause. -/
theorem claim_C1_counterexample :
    sC1.tokenExpiration = some 0 ∧
    (request 3 netC1s 0 sC1 "post" "x").map (fun p => p.2.2)
      = some [Ev.invalidate,
          Ev.http "https://mysecurity.eufylife.com/api/v1" "post" "passport/login" 200
            none,
          Ev.connect,
          Ev.http "https://mysecurity.eufylife.com/api/v1" "post" "x" 200
            (some (-1000))] ∧
    ¬ expOk 0 (some (-1000)) :=
  ⟨rfl, rfl, by simp [expOk]⟩

theorem trustFold_tokenInv (l : List TrustDevice) (s : ApiState) (h : TokenInv s) :
    TokenInv (trustFold l s) := by
  induction l generalizing s with
  | nil => exact h
  | cons hd tl ih =>
    rw [trustFold, List.foldl_cons]
    by_cases hc : hd.is_current_device = 1
    · rw [if_pos hc]
      exact ih _ (fun _ => by simp)
    · rw [if_neg hc]
      exact ih _ h

theorem listTrustDevice_tokenInv (fuel : Nat) (net : Net) (now : Int) (s : ApiState)
    (l : List TrustDevice) (s2 : ApiState) (t : List Ev)
    (h : listTrustDevice fuel net now s = some (l, s2, t)) (hinv : TokenInv s) :
    TokenInv s2 := by
  cases fuel with
  | zero => simp [listTrustDevice] at h
  | succ fuel =>
    simp only [listTrustDevice] at h
    cases hreq : request fuel net now s "get" "app/trust_device/list" with
    | none => rw [hreq] at h; simp at h
    | some v =>
      obtain ⟨resp, s1, t1⟩ := v
      rw [hreq] at h
      simp only [] at h
      have hseg := ((runBundle fuel).1 net now s "get" "app/trust_device/list"
        resp s1 t1 hreq).1.1 hinv
      repeat' split at h
      all_goals
        first
        | exact Option.noConfusion h
        | (simp only [Option.some.injEq, Prod.mk.injEq] at h
           obtain ⟨-, rfl, -⟩ := h
           exact hseg)

theorem addTrustDevice_tokenInv (fuel : Nat) (net : Net) (now : Int) (s : ApiState)
    (b : Bool) (s2 : ApiState) (t : List Ev)
    (h : addTrustDevice fuel net now s = some (b, s2, t)) (hinv : TokenInv s) :
    TokenInv s2 := by
  cases fuel with
  | zero => simp [addTrustDevice] at h
  | succ fuel =>
    simp only [addTrustDevice] at h
    cases hreq1 : request fuel net now s "post" "passport/login" with
    | none => rw [hreq1] at h; simp at h
    | some v1 =>
      obtain ⟨r1, s1, t1⟩ := v1
      rw [hreq1] at h
      simp only [] at h
      have hseg1 := ((runBundle fuel).1 net now s "post" "passport/login" r1 s1 t1 hreq1).1.1 hinv
      by_cases hst1 : r1.status = 200
      · rw [if_pos hst1] at h
        by_cases hc1 : r1.code = ResponseErrorCode.CODE_WHATEVER_ERROR
        · rw [if_pos hc1] at h
          cases hreq2 : request fuel net now s1 "post" "app/trust_device/add" with
          | none => rw [hreq2] at h; simp at h
          | some v2 =>
            obtain ⟨r2, s2x, t2⟩ := v2
            rw [hreq2] at h
            simp only [] at h
            have hseg2 := ((runBundle fuel).1 net now s1 "post" "app/trust_device/add"
              r2 s2x t2 hreq2).1.1 hseg1
            by_cases hst2 : r2.status = 200
            · rw [if_pos hst2] at h
              by_cases hc2 : r2.code = ResponseErrorCode.CODE_WHATEVER_ERROR
              · rw [if_pos hc2] at h
                cases hlst : listTrustDevice fuel net now s2x with
                | none => rw [hlst] at h; simp at h
                | some v3 =>
                  obtain ⟨l, s3, t3⟩ := v3
                  rw [hlst] at h
                  simp only [Option.some.injEq, Prod.mk.injEq] at h
                  obtain ⟨-, rfl, -⟩ := h
                  have hseg3 := listTrustDevice_tokenInv fuel net now s2x l s3 t3 hlst hseg2
                  exact trustFold_tokenInv l s3 hseg3
              · rw [if_neg hc2] at h
                simp only [Option.some.injEq, Prod.mk.injEq] at h
                obtain ⟨-, rfl, -⟩ := h
                exact hseg2
            · rw [if_neg hst2] at h
              by_cases h401 : r2.status = 401
              · rw [if_pos h401] at h
                simp only [Option.some.injEq, Prod.mk.injEq] at h
                obtain ⟨-, rfl, -⟩ := h
                exact tokenInv_of_token_none rfl
              · rw [if_neg h401] at h
                simp only [Option.some.injEq, Prod.mk.injEq] at h
                obtain ⟨-, rfl, -⟩ := h
                exact hseg2
        · rw [if_neg hc1] at h
          simp only [Option.some.injEq, Prod.mk.injEq] at h
          obtain ⟨-, rfl, -⟩ := h
          exact hseg1
      · rw [if_neg hst1] at h
        simp only [Option.some.injEq, Prod.mk.injEq] at h
        obtain ⟨-, rfl, -⟩ := h
        exact hseg1

theorem reachable_tokenInv (allow : Bool) (s : ApiState) (h : Reachable allow s) :
    allow = false → TokenInv s := by
  induction h with
  | construct => exact fun _ => tokenInv_of_token_none rfl
  | auth allow fuel net now s a s2 t _ hrun ih =>
    exact fun hf => ((runBundle fuel).2.1 net now s a s2 t hrun).1.1 (ih hf)
  | send allow fuel net now s b s2 t _ hrun ih =>
    exact fun hf => ((runBundle fuel).2.2 net now s b s2 t hrun).1.1 (ih hf)
  | req allow fuel net now s m ep r s2 t _ hrun ih =>
    exact fun hf => ((runBundle fuel).1 net now s m ep r s2 t hrun).1.1 (ih hf)
  | addTrust allow fuel net now s b s2 t _ hrun ih =>
    exact fun hf => addTrustDevice_tokenInv fuel net now s b s2 t hrun (ih hf)
  | invalidate allow s _ _ => exact fun _ => tokenInv_of_token_none rfl
  | setTok tk s _ _ => exact fun hf => Bool.noConfusion hf
  | setExp allow d s _ _ => exact fun _ _ => by simp [setTokenExpiration]

/-- C4 (amended): in every state reachable via construction, `authenticate`,
`sendVerifyCode`, `addTrustDevice`, `invalidateToken`, `request` and
`setTokenExpiration` — i.e. all the claimed operations except `setToken` — a
set token implies a set `tokenExpiration`.  The claim as stated (with
`setToken` included) is false: see `claim_C4_counterexample`. -/
theorem claim_C4_token_invariant_amended (s : ApiState) (h : Reachable false s)
    (htok : s.token ≠ none) : s.tokenExpiration ≠ none :=
  reachable_tokenInv false s h rfl htok

/-- C4 counterexample: `setToken` on a fresh instance yields a reachable state
with `token` set and `tokenExpiration` still `null`, violating the claimed
invariant as stated. -/
theorem claim_C4_counterexample :
    Reachable true (setToken (mkHTTPApi "u" "p") "T") ∧
    (setToken (mkHTTPApi "u" "p") "T").token = some "T" ∧
    (setToken (mkHTTPApi "u" "p") "T").tokenExpiration = none :=
  ⟨Reachable.setTok "T" (mkHTTPApi "u" "p") (Reachable.construct true "u" "p"), rfl, rfl⟩

/-- C4 witness: a token-holding state reached through `authenticate` (without
`setToken`) satisfies the invariant. -/
theorem claim_C4_witness :
    Reachable false sC4w ∧ sC4w.token ≠ none ∧ sC4w.tokenExpiration ≠ none :=
  have hre : Reachable false sC4w :=
    Reachable.auth false 2 netC4 0 (mkHTTPApi "u" "p") AuthResult.OK sC4w
      [Ev.http "https://mysecurity.eufylife.com/api/v1" "post" "passport/login" 200 none,
        Ev.connect]
      (Reachable.construct false "u" "p") rfl
  ⟨hre, by simp [sC4w], claim_C4_token_invariant_amended sC4w hre (by simp [sC4w])⟩

/-- C3: when `authenticate` receives a successful login response carrying a
domain whose base URL differs from the configured `apiBase`, it discards the
just-issued token (token and expiry become `none`), switches `apiBase` to the
new domain, and returns `RENEW`; a subsequent `authenticate` issues its login
request against the updated `apiBase` (first trace event); and a token-less
`request` to a non-login endpoint whose first `authenticate` returns `RENEW`
runs `authenticate` exactly once more before dispatching: its trace is the two
authentication traces followed by the rest of the dispatch. -/
theorem claim_C3_domain_renew (f : Nat) (net : Net) (now : Int) (s : ApiState)
    (m ep : String) (d : LoginResultResponse) (dom : String) (msg1 : String)
    (s1 : ApiState) (t1 : List Ev)
    (hs : s.token = none) (hep : ep ≠ "passport/login")
    (hreq1 : request f net now s "post" "passport/login"
      = some (⟨200, 0, msg1, RespData.login d⟩, s1, t1))
    (hdom : d.domain = some dom)
    (hneq : "https://" ++ dom ++ "/v1" ≠ s1.apiBase) :
    authenticate (f + 1) net now s = some (AuthResult.RENEW,
      { s1 with apiBase := "https://" ++ dom ++ "/v1", token := none, tokenExpiration := none }, t1) ∧
    (∀ g r2 s2 t2, authenticate (g + 2) net now
        { s1 with apiBase := "https://" ++ dom ++ "/v1", token := none, tokenExpiration := none } = some (r2, s2, t2) →
      ∃ st2 rest, t2 = Ev.http ("https://" ++ dom ++ "/v1") "post" "passport/login" st2
        none :: rest) ∧
    (∀ r2 s2 t2, authenticate (f + 1) net now
        { s1 with apiBase := "https://" ++ dom ++ "/v1", token := none, tokenExpiration := none } = some (r2, s2, t2) →
      ∀ r3 s3 t3, request (f + 2) net now s m ep = some (r3, s3, t3) →
        ∃ rest, t3 = t1 ++ t2 ++ rest) := by
  have hstale : tokenStale now s = true := by simp [tokenStale, hs]
  have part1 : authenticate (f + 1) net now s = some (AuthResult.RENEW,
      { s1 with apiBase := "https://" ++ dom ++ "/v1", token := none, tokenExpiration := none }, t1) := by
    simp only [authenticate]
    rw [if_pos hstale, hreq1]
    simp [hdom, hneq, ResponseErrorCode.CODE_WHATEVER_ERROR]
  refine ⟨part1, ?_, ?_⟩
  · intro g r2 s2 t2 ha
    have hstale2 : tokenStale now ({ s1 with apiBase := "https://" ++ dom ++ "/v1", token := none, tokenExpiration := none } : ApiState) = true := by
      simp [tokenStale]
    obtain ⟨resp, sx, t1x, rest, hreqx, rfl⟩ :=
      auth_run_split (g + 1) net now _ r2 s2 t2 hstale2 ha
    simp only [request, httpCall] at hreqx
    rw [if_neg (by simp)] at hreqx
    simp only [] at hreqx
    by_cases h401 : (net s1.netIdx).status = 401
    · rw [if_pos h401] at hreqx
      simp only [Option.some.injEq, Prod.mk.injEq] at hreqx
      obtain ⟨-, -, rfl⟩ := hreqx
      exact ⟨(net s1.netIdx).status, Ev.invalidate :: Ev.close :: rest, by simp⟩
    · rw [if_neg h401] at hreqx
      simp only [Option.some.injEq, Prod.mk.injEq] at hreqx
      obtain ⟨-, -, rfl⟩ := hreqx
      exact ⟨(net s1.netIdx).status, rest, by simp⟩
  · intro r2 s2 t2 ha2 r3 s3 t3 hreq3
    rw [show f + 2 = (f + 1) + 1 from rfl] at hreq3
    simp only [request] at hreq3
    rw [if_pos ⟨hs, hep⟩, part1] at hreq3
    simp only [] at hreq3
    rw [ha2] at hreq3
    simp only [] at hreq3
    obtain ⟨t2', b, st, ex, post, rfl, -, -⟩ :=
      requestTail_decomp (f + 1) net now s2 (t1 ++ t2) m ep r3 s3 _ hreq3
    exact ⟨t2' ++ Ev.http b m ep st ex :: post, by simp⟩

/-- C1 witness: the conclusion evaluated on a concrete expired-token run. -/
theorem claim_C1_witness :
    ∃ pre b st ex post,
      [Ev.invalidate,
        Ev.http "https://mysecurity.eufylife.com/api/v1" "post" "passport/login" 200 none,
        Ev.connect,
        Ev.http "https://mysecurity.eufylife.com/api/v1" "post" "x" 200 (some 10000)]
        = pre ++ Ev.http b "post" "x" st ex :: post ∧
      Ev.invalidate ∈ pre ∧
      ("x" ≠ "passport/login" →
        ∃ b2 m2 st2 ex2, Ev.http b2 m2 "passport/login" st2 ex2 ∈ pre) ∧
      expOk 0 ex :=
  claim_C1_expired_token_preflight 3 netC1 0 sC1 "post" "x" 0 _ _ _ rfl (le_refl 0)
    (by
      intro i d hd
      match i with
      | 0 =>
        simp [netC1] at hd
        rw [← hd]
        decide
      | Nat.succ n =>
        simp [netC1] at hd)
    rfl

/-- C2 witness: the conclusion evaluated on a concrete 401 run. -/
theorem claim_C2_witness :
    cClose [Ev.http "https://mysecurity.eufylife.com/api/v1" "post" "x" 401 (some 99),
        Ev.invalidate, Ev.close]
      = c401 [Ev.http "https://mysecurity.eufylife.com/api/v1" "post" "x" 401 (some 99),
        Ev.invalidate, Ev.close] ∧
    ((401 : Nat) = 401 →
      ({ invalidateToken { sC2 with netIdx := 1 } with connected := false }).token = none ∧
      ({ invalidateToken { sC2 with netIdx := 1 } with
          connected := false }).tokenExpiration = none ∧
      ({ invalidateToken { sC2 with netIdx := 1 } with connected := false }).connected
        = false) :=
  claim_C2_401_closes_session 1 netC2 0 sC2 "post" "x" ⟨401, 0, "", RespData.empty⟩
    { invalidateToken { sC2 with netIdx := 1 } with connected := false }
    [Ev.http "https://mysecurity.eufylife.com/api/v1" "post" "x" 401 (some 99),
      Ev.invalidate, Ev.close] rfl

/-- C3 witness: the conclusion evaluated on a concrete domain-migration run. -/
theorem claim_C3_witness :
    authenticate (1 + 1) netC3 0 (mkHTTPApi "u" "p") = some (AuthResult.RENEW,
      { ({ mkHTTPApi "u" "p" with netIdx := 1 } : ApiState) with
          apiBase := "https://" ++ "eu.anker.com" ++ "/v1"
          token := none
          tokenExpiration := none },
      [Ev.http "https://mysecurity.eufylife.com/api/v1" "post" "passport/login" 200
        none]) ∧
    (∀ g r2 s2 t2, authenticate (g + 2) netC3 0
        { ({ mkHTTPApi "u" "p" with netIdx := 1 } : ApiState) with
            apiBase := "https://" ++ "eu.anker.com" ++ "/v1"
            token := none
            tokenExpiration := none } = some (r2, s2, t2) →
      ∃ st2 rest, t2 = Ev.http ("https://" ++ "eu.anker.com" ++ "/v1") "post"
        "passport/login" st2 none :: rest) ∧
    (∀ r2 s2 t2, authenticate (1 + 1) netC3 0
        { ({ mkHTTPApi "u" "p" with netIdx := 1 } : ApiState) with
            apiBase := "https://" ++ "eu.anker.com" ++ "/v1"
            token := none
            tokenExpiration := none } = some (r2, s2, t2) →
      ∀ r3 s3 t3, request (1 + 2) netC3 0 (mkHTTPApi "u" "p") "post" "x"
          = some (r3, s3, t3) →
        ∃ rest, t3 =
          [Ev.http "https://mysecurity.eufylife.com/api/v1" "post" "passport/login" 200
            none] ++ t2 ++ rest) :=
  claim_C3_domain_renew 1 netC3 0 (mkHTTPApi "u" "p") "post" "x"
    ⟨"A", 10, some "eu.anker.com"⟩ "eu.anker.com" ""
    { mkHTTPApi "u" "p" with netIdx := 1 }
    [Ev.http "https://mysecurity.eufylife.com/api/v1" "post" "passport/login" 200 none]
    rfl (by decide) rfl rfl (by decide)

/-- C9 witness: the conclusion evaluated on a concrete successful 2FA run whose
trusted list marks the current device. -/
theorem claim_C9_witness :
    ∃ s3 t, addTrustDevice (0 + 3) netC9 0 sC9 = some (true, s3, t) ∧
      ((∃ td ∈ [(⟨1⟩ : TrustDevice)], td.is_current_device = 1) →
        s3.tokenExpiration = some sC9.trustedTokenExpiration) ∧
      ((¬ ∃ td ∈ [(⟨1⟩ : TrustDevice)], td.is_current_device = 1) →
        s3.tokenExpiration = some 5) :=
  claim_C9_trust_device_extends_expiry 0 netC9 0 sC9 "T" 5 [⟨1⟩] "" rfl rfl (by decide)
    rfl rfl rfl rfl rfl
